import Mathlib
/-!
Verification development for the moco experiment-tracking tool.

The Go sources are shallowly embedded:
* a text line is a `List Char` (written by the code, read back by
  `bufio.Scanner`, which splits the file at newline characters);
* `time.Time` values are embedded as a `Timestamp` record of calendar
  fields plus a zone offset, with `Format`/`Parse` for the layouts the
  code uses implemented over character lists;
* file-system and process effects of the run orchestrator are embedded
  as an explicit effect trace produced from an environment record that
  fixes the outcome of every external call.
-/

/-- Characters of a string literal; lines of text are embedded as `List Char`. -/
def str (s : String) : List Char := s.data

/-- A single line of a summary file, as scanned by `bufio.Scanner`. -/
abbrev Line := List Char

/-- The backtick character used by `trimBackticks` (Go `'\x60'`). -/
def backtick : Char := Char.ofNat 96

/-- Go `strings.CutPrefix(s, pre)`: `some rest` when `pre` is a prefix of `s`. -/
def cutPfx? : List Char → List Char → Option (List Char)
  | [], s => some s
  | _ :: _, [] => none
  | p :: ps, c :: cs => if p = c then cutPfx? ps cs else none

/-- Go `strings.HasPrefix(s, pre)`. -/
def hasPfx (pre s : List Char) : Bool :=
  (cutPfx? pre s).isSome

/-- Go `strings.Contains(s, sub)`. -/
def containsStr : List Char → List Char → Bool
  | s, sub =>
    if hasPfx sub s then true
    else match s with
      | [] => false
      | _ :: rest => containsStr rest sub

/-- Digit character for a value below ten. -/
def dChar (d : Nat) : Char := Char.ofNat (48 + d)

/-- Numeric value of a decimal digit character, if it is one. -/
def digit? (c : Char) : Option Nat :=
  if 48 ≤ c.toNat ∧ c.toNat ≤ 57 then some (c.toNat - 48) else none

/-- Two-digit zero-padded decimal rendering (Go layout fragment `04`). -/
def pad2 (n : Nat) : List Char := [dChar (n / 10), dChar (n % 10)]

/-- Three-digit zero-padded decimal rendering (Go layout fragment `.000`). -/
def pad3 (n : Nat) : List Char := [dChar (n / 100), dChar (n / 10 % 10), dChar (n % 10)]

/-- Four-digit zero-padded decimal rendering (Go layout fragment `2006`). -/
def pad4 (n : Nat) : List Char :=
  [dChar (n / 1000), dChar (n / 100 % 10), dChar (n / 10 % 10), dChar (n % 10)]

/-- Read exactly two decimal digits from the front of a line. -/
def read2 : List Char → Option (Nat × List Char)
  | a :: b :: rest =>
    match digit? a, digit? b with
    | some x, some y => some (10 * x + y, rest)
    | _, _ => none
  | _ => none

/-- Read exactly three decimal digits from the front of a line. -/
def read3 : List Char → Option (Nat × List Char)
  | a :: b :: c :: rest =>
    match digit? a, digit? b, digit? c with
    | some x, some y, some z => some (100 * x + 10 * y + z, rest)
    | _, _, _ => none
  | _ => none

/-- Read exactly four decimal digits from the front of a line. -/
def read4 : List Char → Option (Nat × List Char)
  | a :: b :: c :: d :: rest =>
    match digit? a, digit? b, digit? c, digit? d with
    | some x, some y, some z, some w => some (1000 * x + 100 * y + 10 * z + w, rest)
    | _, _, _, _ => none
  | _ => none

/-- Consume one expected character from the front of a line. -/
def expectC (c : Char) : List Char → Option (List Char)
  | x :: rest => if x = c then some rest else none
  | [] => none

/-- Decimal digits of a natural number, most significant first
(fuel-indexed so the definition is structurally recursive). -/
def natDigitsAux : Nat → Nat → List Char
  | 0, _ => []
  | fuel + 1, n =>
    if n < 10 then [dChar n] else natDigitsAux fuel (n / 10) ++ [dChar (n % 10)]

/-- Decimal digits of a natural number, most significant first (Go `%d`). -/
def natDigits (n : Nat) : List Char := natDigitsAux (n + 1) n

/-- Go `%d` on an `int` value. -/
def intStr (i : Int) : List Char :=
  if i < 0 then Char.ofNat 45 :: natDigits i.natAbs else natDigits i.natAbs

/-- Check that every character is a decimal digit. -/
def allDigits : List Char → Bool
  | [] => true
  | c :: rest => (digit? c).isSome && allDigits rest

/-- Decimal value of a digit string (left fold, as `strconv.Atoi` accumulates). -/
def digitsVal : List Char → Nat
  | s => s.foldl (fun acc c => acc * 10 + ((digit? c).getD 0)) 0

/-- Go `strconv.Atoi`: optional sign followed by at least one digit. -/
def atoi (s : List Char) : Option Int :=
  match s with
  | c :: rest =>
    if c = Char.ofNat 45 then
      if rest ≠ [] ∧ allDigits rest then some (-(digitsVal rest : Int)) else none
    else if c = Char.ofNat 43 then
      if rest ≠ [] ∧ allDigits rest then some (digitsVal rest : Int) else none
    else if s ≠ [] ∧ allDigits s then some (digitsVal s : Int) else none
  | [] => none

/-- Embedding of a Go `time.Time`: calendar fields, nanoseconds, and the
zone offset in minutes (Go stores seconds east of UTC). -/
structure Timestamp where
  year : Nat
  month : Nat
  day : Nat
  hour : Nat
  minute : Nat
  second : Nat
  nanos : Nat
  offsetMin : Int
deriving DecidableEq, Repr

/-- The zero `time.Time` (January 1, year 1, 00:00:00 UTC). -/
def Timestamp.zero : Timestamp := ⟨1, 1, 1, 0, 0, 0, 0, 0⟩

/-- Gregorian leap-year test. -/
def isLeap (y : Nat) : Bool := y % 4 = 0 ∧ (y % 100 ≠ 0 ∨ y % 400 = 0)

/-- Number of days in a month of a given year. -/
def daysInMonth (y m : Nat) : Nat :=
  if m = 2 then (if isLeap y then 29 else 28)
  else if m = 4 ∨ m = 6 ∨ m = 9 ∨ m = 11 then 30
  else 31

/-- Field ranges Go's `time.Parse` accepts (month length included). -/
def tsRangesOk (y mo d h mi s : Nat) : Bool :=
  1 ≤ mo ∧ mo ≤ 12 ∧ 1 ≤ d ∧ d ≤ daysInMonth y mo ∧ h ≤ 23 ∧ mi ≤ 59 ∧ s ≤ 59

/-- A timestamp the embedded `Format`/`Parse` pair is faithful for:
its calendar fields are in range, its year has four digits, and its
zone offset is a representable `±hh:mm` with `hh ≤ 23`. -/
def Timestamp.Valid (t : Timestamp) : Prop :=
  tsRangesOk t.year t.month t.day t.hour t.minute t.second = true ∧
    t.year < 10000 ∧ t.offsetMin.natAbs ≤ 23 * 60 + 59

instance (t : Timestamp) : Decidable t.Valid := by
  unfold Timestamp.Valid; infer_instance

/-- Truncation to whole seconds (what formatting without a fractional
layout element loses). -/
def truncSec (t : Timestamp) : Timestamp := { t with nanos := 0 }

/-- Truncation to whole milliseconds. -/
def truncMilli (t : Timestamp) : Timestamp :=
  { t with nanos := t.nanos / 1000000 * 1000000 }

/-- Zone suffix of Go's `Z07:00` layout element: `Z` for UTC, else `±hh:mm`. -/
def zoneChars (off : Int) : Line :=
  if off = 0 then ['Z']
  else (if off < 0 then '-' else '+') :: (pad2 (off.natAbs / 60) ++ (':' :: pad2 (off.natAbs % 60)))

/-- Go `t.Format(time.RFC3339)` (`2006-01-02T15:04:05Z07:00`): fractional
seconds are not emitted. -/
def fmtRFC3339 (t : Timestamp) : Line :=
  pad4 t.year ++ ('-' :: (pad2 t.month ++ ('-' :: (pad2 t.day ++ ('T' ::
    (pad2 t.hour ++ (':' :: (pad2 t.minute ++ (':' ::
      (pad2 t.second ++ zoneChars t.offsetMin))))))))))

/-- Go `t.Format("2006-01-02T15:04:05.000")`: millisecond precision, no zone. -/
def fmtMilli (t : Timestamp) : Line :=
  pad4 t.year ++ ('-' :: (pad2 t.month ++ ('-' :: (pad2 t.day ++ ('T' ::
    (pad2 t.hour ++ (':' :: (pad2 t.minute ++ (':' :: (pad2 t.second ++ ('.' ::
      pad3 (t.nanos / 1000000))))))))))))

/-- Optional fractional-second part (Go's `Parse` accepts a fraction after
the seconds even when the layout has none). -/
def parseFrac (s : Line) : Nat × Line :=
  match s with
  | '.' :: rest =>
    let ds := rest.takeWhile (fun c => (digit? c).isSome)
    if ds = [] then (0, s)
    else (digitsVal (ds.take 9) * 10 ^ (9 - min ds.length 9), rest.drop ds.length)
  | _ => (0, s)

/-- Magnitude part `hh:mm` of a numeric zone offset, in minutes. -/
def parseOffMag (s : Line) : Option Int :=
  match read2 s with
  | none => none
  | some (hh, s) =>
  match expectC ':' s with
  | none => none
  | some s =>
  match read2 s with
  | none => none
  | some (mm, s) =>
    if s = [] ∧ hh ≤ 23 ∧ mm ≤ 59 then some ((hh : Int) * 60 + mm) else none

/-- Zone suffix parser for the `Z07:00` layout element. -/
def parseZone (s : Line) : Option Int :=
  match s with
  | ['Z'] => some 0
  | '+' :: rest => parseOffMag rest
  | '-' :: rest => (parseOffMag rest).map Neg.neg
  | _ => none

/-- Go `time.Parse(time.RFC3339, s)`. -/
def parseRFC3339 (s : Line) : Option Timestamp :=
  match read4 s with
  | none => none
  | some (year, s) =>
  match expectC '-' s with
  | none => none
  | some s =>
  match read2 s with
  | none => none
  | some (month, s) =>
  match expectC '-' s with
  | none => none
  | some s =>
  match read2 s with
  | none => none
  | some (day, s) =>
  match expectC 'T' s with
  | none => none
  | some s =>
  match read2 s with
  | none => none
  | some (hour, s) =>
  match expectC ':' s with
  | none => none
  | some s =>
  match read2 s with
  | none => none
  | some (minute, s) =>
  match expectC ':' s with
  | none => none
  | some s =>
  match read2 s with
  | none => none
  | some (second, s) =>
    let fs := parseFrac s
    match parseZone fs.2 with
    | none => none
    | some off =>
      if tsRangesOk year month day hour minute second then
        some ⟨year, month, day, hour, minute, second, fs.1, off⟩
      else none

/-- Go `time.Parse("2006-01-02T15:04:05.000", s)` (no zone: UTC). -/
def parseMilli (s : Line) : Option Timestamp :=
  match read4 s with
  | none => none
  | some (year, s) =>
  match expectC '-' s with
  | none => none
  | some s =>
  match read2 s with
  | none => none
  | some (month, s) =>
  match expectC '-' s with
  | none => none
  | some s =>
  match read2 s with
  | none => none
  | some (day, s) =>
  match expectC 'T' s with
  | none => none
  | some s =>
  match read2 s with
  | none => none
  | some (hour, s) =>
  match expectC ':' s with
  | none => none
  | some s =>
  match read2 s with
  | none => none
  | some (minute, s) =>
  match expectC ':' s with
  | none => none
  | some s =>
  match read2 s with
  | none => none
  | some (second, s) =>
  match expectC '.' s with
  | none => none
  | some s =>
  match read3 s with
  | none => none
  | some (ms, s) =>
    if s = [] ∧ tsRangesOk year month day hour minute second then
      some ⟨year, month, day, hour, minute, second, ms * 1000000, 0⟩
    else none

/-- Days since 1970-01-01 of a civil date (standard era-based algorithm). -/
def daysFromCivil (y m d : Int) : Int :=
  let y2 := if m ≤ 2 then y - 1 else y
  let era := Int.fdiv y2 400
  let yoe := y2 - era * 400
  let mp := Int.fmod (m + 9) 12
  let doy := Int.fdiv (153 * mp + 2) 5 + d - 1
  let doe := yoe * 365 + Int.fdiv yoe 4 - Int.fdiv yoe 100 + doy
  era * 146097 + doe - 719468

/-- Absolute instant of a timestamp, in seconds since the Unix epoch
(Go `time.Time` comparisons and subtraction act on this instant). -/
def tsAbsSec (t : Timestamp) : Int :=
  daysFromCivil t.year t.month t.day * 86400 + t.hour * 3600 + t.minute * 60 +
    t.second - t.offsetMin * 60

/-- Absolute instant in nanoseconds since the Unix epoch. -/
def tsAbsNs (t : Timestamp) : Int :=
  tsAbsSec t * 1000000000 + t.nanos

/-- Go `t.AddDate(1, 0, 0)`: one calendar year later, with Feb 29
normalized to Mar 1 in a non-leap target year. -/
def addOneYear (t : Timestamp) : Timestamp :=
  if t.month = 2 ∧ t.day = 29 ∧ ¬isLeap (t.year + 1) then
    { t with year := t.year + 1, month := 3, day := 1 }
  else
    { t with year := t.year + 1 }

/-- Embedding of the Go `RepoStatus` struct (internal/utils/repo.go). -/
structure RepoStatus where
  IsValid : Bool
  IsDirty : Bool
  Branch : Line
  ShortHash : Line
  FullHash : Line
deriving DecidableEq, Repr

/-- Embedding of the Go `RunInfo` struct (internal/utils/summary.go). -/
structure RunInfo where
  Directory : Line
  File : Line
  Command : Line
  StartTime : Timestamp
  EndTime : Timestamp
  ExitStatus : Int
  IsRunning : Bool
  Branch : Line
  CommitHash : Line
  Interrupted : Bool
deriving DecidableEq, Repr

/-- The field-specific parse failures `ParseRunInfo` can return. -/
inductive PErr where
  | startTime
  | branchField
  | commitHash
  | commandField
  | exitStatus
  | endTime
deriving DecidableEq, Repr

/-- Go `trimBackticks` (summary.go:292): strips one backtick from each end,
failing unless the value is enclosed in a backtick pair. -/
def trimBackticks (s : Line) : Option Line :=
  if s.length < 2 ∨ s.head? ≠ some backtick ∨ s.getLast? ≠ some backtick then none
  else some ((s.drop 1).dropLast)

/-- Handler for the `Execution datetime` metadata line (summary.go:242). -/
def handleStart (wcb : Bool) (info : RunInfo) (after : Line) :
    (Bool × RunInfo) × Option PErr :=
  match parseRFC3339 after with
  | some tm => ((wcb, { info with StartTime := tm }), none)
  | none => ((wcb, info), some .startTime)

/-- Handler for the `Branch` metadata line (summary.go:249). -/
def handleBranch (wcb : Bool) (info : RunInfo) (after : Line) :
    (Bool × RunInfo) × Option PErr :=
  match trimBackticks after with
  | some b => ((wcb, { info with Branch := b }), none)
  | none => ((wcb, info), some .branchField)

/-- Handler for the `Commit hash` metadata line (summary.go:255). -/
def handleHash (wcb : Bool) (info : RunInfo) (after : Line) :
    (Bool × RunInfo) × Option PErr :=
  match trimBackticks after with
  | some h => ((wcb, { info with CommitHash := h }), none)
  | none => ((wcb, info), some .commitHash)

/-- Handler for the `Command` metadata line (summary.go:261). -/
def handleCommand (wcb : Bool) (info : RunInfo) (after : Line) :
    (Bool × RunInfo) × Option PErr :=
  match trimBackticks after with
  | some c => ((wcb, { info with Command := c }), none)
  | none => ((wcb, info), some .commandField)

/-- Handler for the `Exit status` line (summary.go:268): flips `IsRunning`
before the integer is parsed, exactly as the Go code does. -/
def handleExit (wcb : Bool) (info : RunInfo) (after : Line) :
    (Bool × RunInfo) × Option PErr :=
  let info := { info with IsRunning := false }
  match atoi after with
  | some n => ((wcb, { info with ExitStatus := n }), none)
  | none => ((wcb, info), some .exitStatus)

/-- Handler for the `Execution finished` line (summary.go:276). -/
def handleEnd (wcb : Bool) (info : RunInfo) (after : Line) :
    (Bool × RunInfo) × Option PErr :=
  match parseRFC3339 after with
  | some tm => ((wcb, { info with EndTime := tm }), none)
  | none => ((wcb, info), some .endTime)

/-- Final arm of the scan loop: the `Terminated by user` marker test
(summary.go:283). -/
def handleRest (wcb : Bool) (info : RunInfo) (line : Line) :
    (Bool × RunInfo) × Option PErr :=
  if containsStr line (str "**Terminated by user**") then
    ((wcb, { info with Interrupted := true }), none)
  else ((wcb, info), none)

/-- One iteration of the scan loop of `ParseRunInfo` (summary.go:229-287):
toggle the fence state, skip fenced lines, then try each label prefix in
source order (the per-label bodies are split into the named handlers above). -/
def processLine (st : Bool × RunInfo) (line : Line) :
    (Bool × RunInfo) × Option PErr :=
  let wcb := if hasPfx (str "```") line then !st.1 else st.1
  if wcb then ((wcb, st.2), none)
  else
    match cutPfx? (str "- **Execution datetime**: ") line with
    | some after => handleStart wcb st.2 after
    | none =>
    match cutPfx? (str "- **Branch**: ") line with
    | some after => handleBranch wcb st.2 after
    | none =>
    match cutPfx? (str "- **Commit hash**: ") line with
    | some after => handleHash wcb st.2 after
    | none =>
    match cutPfx? (str "- **Command**: ") line with
    | some after => handleCommand wcb st.2 after
    | none =>
    match cutPfx? (str "- **Exit status**: ") line with
    | some after => handleExit wcb st.2 after
    | none =>
    match cutPfx? (str "- **Execution finished**: ") line with
    | some after => handleEnd wcb st.2 after
    | none => handleRest wcb st.2 line

/-- The scan loop: Go's early `return` on a field error stops the fold. -/
def parseLinesAux (st : Bool × RunInfo) : List Line → (Bool × RunInfo) × Option PErr
  | [] => (st, none)
  | l :: ls =>
    match processLine st l with
    | (st', none) => parseLinesAux st' ls
    | (st', some e) => (st', some e)

/-- The record `ParseRunInfo` starts from (summary.go:212): Go zero values
with `IsRunning` set to true and the split path filled in. -/
def initialRunInfo (directory file : Line) : RunInfo :=
  { Directory := directory, File := file, Command := [],
    StartTime := Timestamp.zero, EndTime := Timestamp.zero,
    ExitStatus := 0, IsRunning := true, Branch := [], CommitHash := [],
    Interrupted := false }

/-- Go `ParseRunInfo` (summary.go:210): the scanned lines stand for the
file contents; `directory`/`file` are `filepath.Split(summaryPath)`.
Mirrors Go's multiple return `(RunInfo, error)`: on error the partially
filled record is returned alongside the field error. -/
def ParseRunInfo (directory file : Line) (lines : List Line) :
    RunInfo × Option PErr :=
  let r := parseLinesAux (false, initialRunInfo directory file) lines
  (r.1.2, r.2)

/-- Metadata line `- **Execution datetime**: <RFC3339>` (summary.go:88). -/
def dtLine (t : Timestamp) : Line := str "- **Execution datetime**: " ++ fmtRFC3339 t

/-- Metadata line for the branch, value wrapped in backticks (summary.go:89). -/
def branchLine (v : Line) : Line := str "- **Branch**: " ++ (backtick :: (v ++ [backtick]))

/-- Metadata line for the commit hash (summary.go:90). -/
def hashLine (v : Line) : Line := str "- **Commit hash**: " ++ (backtick :: (v ++ [backtick]))

/-- Metadata line for the joined command (summary.go:91). -/
def cmdLine (v : Line) : Line := str "- **Command**: " ++ (backtick :: (v ++ [backtick]))

/-- Metadata line for the hostname (summary.go:92). -/
def hostLine (v : Line) : Line := str "- **Hostname**: " ++ (backtick :: (v ++ [backtick]))

/-- Metadata line for the working directory (summary.go:93). -/
def wdLine (v : Line) : Line := str "- **Working directory**: " ++ (backtick :: (v ++ [backtick]))

/-- Results line `- **Execution finished**: <RFC3339>` (summary.go:176). -/
def endLine (t : Timestamp) : Line := str "- **Execution finished**: " ++ fmtRFC3339 t

/-- Results line `- **Execution time**: <duration>` (summary.go:177). -/
def durLine (d : Line) : Line := str "- **Execution time**: " ++ d

/-- Results line `- **Exit status**: <int>` (summary.go:178). -/
def exitLine (code : Int) : Line := str "- **Exit status**: " ++ intStr code

/-- Results line `- **Terminated by user**` (summary.go:182). -/
def termLine : Line := str "- **Terminated by user**"

/-- A mismatch between two lines inside their common length: no extension
of the second can have the first as a prefix. -/
def mismatchWithin : List Char → List Char → Bool
  | _, [] => false
  | [], _ => false
  | p :: ps, q :: qs => decide (p ≠ q) || mismatchWithin ps qs

/-- Every nonempty suffix of the line mismatches `m` inside the fixed part,
so a scan for `m` can never match at an offset inside it. -/
def scanSafe (m : Line) : Line → Bool
  | [] => true
  | c :: rest => mismatchWithin m (c :: rest) && scanSafe m rest

/-- All-prefixes-fail form of `plainLine`: a line outside fences that
matches no label and lacks the termination marker is skipped unchanged. -/
def plainLine (l : Line) : Bool :=
  !hasPfx (str "```") l &&
  (cutPfx? (str "- **Execution datetime**: ") l).isNone &&
  (cutPfx? (str "- **Branch**: ") l).isNone &&
  (cutPfx? (str "- **Commit hash**: ") l).isNone &&
  (cutPfx? (str "- **Command**: ") l).isNone &&
  (cutPfx? (str "- **Exit status**: ") l).isNone &&
  (cutPfx? (str "- **Execution finished**: ") l).isNone &&
  !containsStr l (str "**Terminated by user**")

/-- Go `strings.Join(command, " ")`. -/
def joinSpace : List Line → Line
  | [] => []
  | [x] => x
  | x :: xs => x ++ (' ' :: joinSpace xs)

/-- Go `Duration.Round(time.Second)`: nearest whole second, half away
from zero, on a duration in nanoseconds. -/
def durRoundSec (ns : Int) : Int :=
  let q := Int.tdiv ns 1000000000
  let r := Int.tmod ns 1000000000
  if 2 * r.natAbs < 1000000000 then q
  else if ns < 0 then q - 1 else q + 1

/-- Go `formatDuration` (summary.go:194): `Xh Ym Zs` with the larger units
omitted while zero; `int(d.Hours())` etc. truncate toward zero and Go `%`
is the truncated remainder, embedded with `Int.tdiv`/`Int.tmod`. -/
def formatDuration (ns : Int) : Line :=
  let s := durRoundSec ns
  let hours := Int.tdiv s 3600
  let minutes := Int.tmod (Int.tdiv s 60) 60
  let seconds := Int.tmod s 60
  if 0 < hours then
    intStr hours ++ (str "h " ++ (intStr minutes ++ (str "m " ++ (intStr seconds ++ str "s"))))
  else if 0 < minutes then
    intStr minutes ++ (str "m " ++ (intStr seconds ++ str "s"))
  else intStr seconds ++ str "s"

/-- Go `formatGitStatus` (summary.go:146), as the scanner lines of the
string it builds (each `+=` appends one newline-terminated line). -/
def formatGitStatusLines (repo : RepoStatus) : List Line :=
  if !repo.IsValid then [str "Not a valid git repository"]
  else
    (str "On branch " ++ repo.Branch) ::
      (if repo.IsDirty then
        [str "Changes not staged for commit:",
         str "  (use \"git add <file>...\" to update what will be committed)",
         str "  (use \"git restore <file>...\" to discard changes in working directory)",
         str "",
         str "        modified:   [uncommitted changes present]"]
      else [str "nothing to commit, working tree clean"])

/-- Go `WriteSummaryFileInit` (summary.go:49), as the scanner lines of
the file it creates.  The free-form collaborator outputs (`commitDetails`,
the diff, the system info) are taken as the scanner lines they contribute;
`hostname` and the directory come from best-effort calls in the source and
are passed in here.  Note the extra blank line after the git-status block:
`formatGitStatus` ends with a newline and the writer appends another. -/
def WriteSummaryFileInitLines (startTime : Timestamp) (repo gitStatusSnap : RepoStatus)
    (command : List Line) (hostname directory : Line)
    (commitDetails gitDiff sysInfo : List Line) : List Line :=
  [str "# Experiment Summary", str "", str "## Metadata",
   dtLine startTime,
   branchLine repo.Branch,
   hashLine repo.FullHash,
   cmdLine (joinSpace command),
   hostLine hostname,
   wdLine directory,
   str "", str "## Latest Commit Details", str "```diff"] ++
  (commitDetails ++
  ([str "```", str "", str "## Git Status", str "```"] ++
  (formatGitStatusLines gitStatusSnap ++
  ([str "", str "```", str "", str "## Uncommitted Changes (Diff)", str "```diff"] ++
  (gitDiff ++
  ([str "```", str "", str "## Environment Info", str "```"] ++
  (sysInfo ++ [str "```"])))))))

/-- Go `WriteSummaryFileEnd` (summary.go:165), as the scanner lines the
append adds (the leading newline of the results string yields the blank
line, since the initial block ends with a newline). -/
def WriteSummaryFileEndLines (startTime endTime : Timestamp) (exitCode : Int)
    (interrupted : Bool) : List Line :=
  [str "", str "## Execution Results",
   endLine endTime,
   durLine (formatDuration (tsAbsNs endTime - tsAbsNs startTime)),
   exitLine exitCode] ++
  (if interrupted then [termLine] else [])

/-- Go `compareInt` (list.go:260). -/
def compareInt (a b : Int) : Int :=
  if a < b then -1 else if a > b then 1 else 0

/-- Go `compareDuration` (list.go:271), durations in nanoseconds. -/
def compareDuration (a b : Int) : Int :=
  if a < b then -1 else if a > b then 1 else 0

/-- Go `compareTime` (list.go:282): `Before`/`After` compare instants. -/
def compareTime (a b : Timestamp) : Int :=
  if tsAbsNs a < tsAbsNs b then -1 else if tsAbsNs b < tsAbsNs a then 1 else 0

/-- Go `strings.Compare`, lexicographic on character codes. -/
def cmpLex : List Char → List Char → Int
  | [], [] => 0
  | [], _ :: _ => -1
  | _ :: _, [] => 1
  | a :: as, b :: bs =>
    if a.toNat < b.toNat then -1
    else if b.toNat < a.toNat then 1
    else cmpLex as bs

/-- The comparison function `sortRuns` picks from its `sortBy` string
(list.go:220-246); any string other than the three named keys falls back
to the start-time comparison. -/
def sortFunc (sortBy : Line) : RunInfo → RunInfo → Int :=
  if sortBy = str "branch" then fun a b => cmpLex a.Branch b.Branch
  else if sortBy = str "status" then fun a b =>
    if a.IsRunning then (if b.IsRunning then 0 else -1)
    else if b.IsRunning then 1
    else compareInt a.ExitStatus b.ExitStatus
  else if sortBy = str "duration" then fun a b =>
    compareDuration (tsAbsNs a.EndTime - tsAbsNs a.StartTime)
      (tsAbsNs b.EndTime - tsAbsNs b.StartTime)
  else fun a b => compareTime a.StartTime b.StartTime

/-- Go `sortRuns` (list.go:216): negates the comparison when `reverse` is
set and sorts stably; `slices.SortStableFunc` is embedded as the stable
`List.mergeSort` ordered by `comparison ≤ 0`. -/
def sortRuns (runs : List RunInfo) (sortBy : Line) (reverse : Bool) : List RunInfo :=
  let f := sortFunc sortBy
  let g := if reverse then (fun a b => -(f a b)) else f
  runs.mergeSort (fun a b => decide (g a b ≤ 0))

/-- The limit step of `List` (list.go:64-66): truncate only when
`0 < limit < length`. -/
def applyLimit (limit : Int) (runs : List RunInfo) : List RunInfo :=
  if 0 < limit ∧ limit < runs.length then runs.take limit.toNat else runs

/-- Ascending start-time order (`sortFunc` for the default key). -/
def dateLE (a b : RunInfo) : Bool :=
  decide (compareTime a.StartTime b.StartTime ≤ 0)

/-- Reversed start-time order. -/
def dateGE (a b : RunInfo) : Bool :=
  decide (-(compareTime a.StartTime b.StartTime) ≤ 0)

/-- Demonstration record of an older finished run (used by the sort
counterexample and witnesses). -/
def runOld : RunInfo :=
  { Directory := str "runs/a/", File := str "summary.md",
    Command := str "run.sh", StartTime := ⟨2024, 1, 1, 0, 0, 0, 0, 0⟩,
    EndTime := ⟨2024, 1, 1, 0, 0, 5, 0, 0⟩, ExitStatus := 0,
    IsRunning := false, Branch := str "main", CommitHash := str "abc1234",
    Interrupted := false }

/-- Demonstration record of a more recent finished run. -/
def runNew : RunInfo :=
  { Directory := str "runs/b/", File := str "summary.md",
    Command := str "run.sh", StartTime := ⟨2024, 1, 2, 0, 0, 0, 0, 0⟩,
    EndTime := ⟨2024, 1, 2, 0, 0, 5, 0, 0⟩, ExitStatus := 0,
    IsRunning := false, Branch := str "main", CommitHash := str "abc1234",
    Interrupted := false }

/-- Embedding of `ListOptions` (list.go:22). -/
structure ListOptions where
  Format : Line
  SortBy : Line
  Reverse : Bool
  Branch : Line
  Status : Line
  Since : Line
  Command : Line
  Limit : Int
deriving DecidableEq, Repr

/-- The failures `filterRuns` can return (bad `since` format; an invalid
command regex is not modelled — the compiled regex is a parameter). -/
inductive ListErr where
  | badSince
deriving DecidableEq, Repr

/-- Go `parseDuration` (list.go:188): `^(\d+)([dhm])$`, duration in
nanoseconds. -/
def parseDuration (s : Line) : Option Int :=
  let ds := s.takeWhile (fun c => (digit? c).isSome)
  let rest := s.drop ds.length
  if ds ≠ [] ∧ (rest = ['d'] ∨ rest = ['h'] ∨ rest = ['m']) then
    some ((digitsVal ds : Int) *
      (if rest = ['d'] then 86400000000000
       else if rest = ['h'] then 3600000000000
       else 60000000000))
  else none

/-- The per-record `continue` conditions of the filter loop
(list.go:152-179), negated into a keep predicate.  `sinceNs` is the
absolute instant of `sinceTime` when a `since` filter is active, and
`cmdMatch` stands for the compiled command regex. -/
def keepRun (opts : ListOptions) (sinceNs : Option Int)
    (cmdMatch : Line → Bool) (run : RunInfo) : Bool :=
  if opts.Branch ≠ [] ∧ containsStr run.Branch opts.Branch = false then false
  else if opts.Status = str "success" ∧
      (run.IsRunning = true ∨ run.ExitStatus ≠ 0) then false
  else if opts.Status = str "failure" ∧
      (run.IsRunning = true ∨ run.ExitStatus = 0) then false
  else if opts.Status = str "running" ∧ run.IsRunning = false then false
  else if ((sinceNs.map
      (fun ts => decide (tsAbsNs run.StartTime < ts))).getD false) then false
  else if opts.Command ≠ [] ∧ cmdMatch run.Command = false then false
  else true

/-- Go `filterRuns` (list.go:128): resolves the `since` filter against the
current time, then keeps the records the loop appends (the append loop is
an order-preserving filter). -/
def filterRuns (now : Timestamp) (cmdMatch : Line → Bool)
    (runs : List RunInfo) (opts : ListOptions) : Except ListErr (List RunInfo) :=
  if opts.Since ≠ [] then
    match parseDuration opts.Since with
    | none => .error .badSince
    | some d =>
      .ok (runs.filter (keepRun opts (some (tsAbsNs now - d)) cmdMatch))
  else .ok (runs.filter (keepRun opts none cmdMatch))

/-- `ListOptions` with only a status filter set (all other filters off). -/
def statusOnlyOpts (status : Line) : ListOptions :=
  { Format := [], SortBy := [], Reverse := false, Branch := [],
    Status := status, Since := [], Command := [], Limit := 0 }

/-- One candidate run directory as `filterRunsToArchive` (archive.go:120)
examines it: whether the directory exists, its base name, and the scanner
lines of its summary file together with the split summary path.  (A
directory name shorter than 23 bytes would make the Go slice `dirName[:23]`
panic; the run-directory naming convention guarantees 23+ bytes, and the
embedding takes the available prefix, which then fails the timestamp
parse.) -/
structure ArchDir where
  exists2 : Bool
  dirName : Line
  summaryDir : Line
  summaryFile : Line
  summaryLines : List Line
deriving Repr

/-- The status filter of `filterRunsToArchive` (archive.go:163-170):
skip when a named filter is set and the exit status contradicts it. -/
def archStatusSkip (status : Line) (info : RunInfo) : Bool :=
  if status ≠ [] ∧ status ≠ str "all" then
    if status = str "success" ∧ info.ExitStatus ≠ 0 then true
    else if status = str "failure" ∧ info.ExitStatus = 0 then true
    else false
  else false

/-- Go `filterRunsToArchive` (archive.go:120): keeps, in order, the parsed
record of every existing directory whose name parses as a
millisecond-precision timestamp before the cutoff and whose summary marks
it finished with a status matching the filter.  A summary parse error is
only logged — the partially parsed record is still used, exactly as in the
source.  The cutoff is carried as its absolute instant in nanoseconds,
which is what Go's `time.Time.Before` compares. -/
def filterRunsToArchive (runDirs : List ArchDir) (cutoffNs : Int)
    (status : Line) : List RunInfo :=
  match runDirs with
  | [] => []
  | rd :: rest =>
    let tail := filterRunsToArchive rest cutoffNs status
    if rd.exists2 = false then tail
    else
      match parseMilli (rd.dirName.take 23) with
      | none => tail
      | some ts =>
        if ¬(tsAbsNs ts < cutoffNs) then tail
        else
          let pr := ParseRunInfo rd.summaryDir rd.summaryFile rd.summaryLines
          if pr.1.IsRunning = true then tail
          else if archStatusSkip status pr.1 = true then tail
          else pr.1 :: tail

/-- Go `parseCutoff` (archive.go:190): `^(\d+)([dhm])$` subtracted from
the current time, returned as an absolute instant. -/
def parseCutoff (olderThan : Line) (now : Timestamp) : Option Int :=
  (parseDuration olderThan).map (fun d => tsAbsNs now - d)

/-- The cutoff selection of `archive.Run` (archive.go:44-58): an unset
`--older-than` becomes `time.Now().AddDate(1, 0, 0)` — one year in the
future — and the runs are then filtered against that cutoff. -/
def archiveSelect (runDirs : List ArchDir) (olderThan : Line) (status : Line)
    (now : Timestamp) : Except ListErr (List RunInfo) :=
  if olderThan ≠ [] then
    match parseCutoff olderThan now with
    | none => .error .badSince
    | some c => .ok (filterRunsToArchive runDirs c status)
  else .ok (filterRunsToArchive runDirs (tsAbsNs (addOneYear now)) status)

/-- The per-directory selection decision `filterRunsToArchive` makes:
`some record` exactly for an existing directory whose name-timestamp
precedes the cutoff and whose parsed summary is finished and matches the
status filter. -/
def archSelectFn (cutoffNs : Int) (status : Line) (rd : ArchDir) : Option RunInfo :=
  if rd.exists2 = true then
    match parseMilli (rd.dirName.take 23) with
    | some ts =>
      if tsAbsNs ts < cutoffNs then
        let pr := ParseRunInfo rd.summaryDir rd.summaryFile rd.summaryLines
        if pr.1.IsRunning = false ∧ archStatusSkip status pr.1 = false then
          some pr.1
        else none
      else none
    | none => none
  else none

/-- Go `utils.SanitizeBranchName` (repo.go:121): `/` becomes `-`. -/
def SanitizeBranchName (name : Line) : Line :=
  name.map (fun c => if c = '/' then '-' else c)

/-- Go `sanitizeName` (experiment/run.go:163): path-unsafe characters
become underscores. -/
def sanitizeName (name : Line) : Line :=
  name.map (fun c =>
    if c = '/' ∨ c = '\\' ∨ c = ':' ∨ c = '*' ∨ c = '?' ∨ c = '"' ∨
        c = '<' ∨ c = '>' ∨ c = '|' ∨ c = ' ' then '_' else c)

/-- Termination of the child process, as the operating system reports it. -/
inductive ChildTermination where
  | exited (code : Int)
  | signaled (sig : Nat)
deriving DecidableEq, Repr

/-- Go `(*ProcessState).ExitCode()` semantics: the exit code of an exited
process, and -1 for a process terminated by a signal. -/
def exitCodeOf : ChildTermination → Int
  | .exited c => c
  | .signaled _ => -1

/-- Result of `cmd.Wait()` (Go `os/exec`): a nil error (the child exited
with code 0), an `*exec.ExitError` wrapping the child's process state
(unsuccessful termination, including death by signal), or some other
error (e.g. I/O trouble), which is not an `*exec.ExitError`. -/
inductive WaitResult where
  | success
  | exitError (ps : ChildTermination)
  | otherError
deriving DecidableEq, Repr

/-- Which arm of the `select` fires first (run.go:113): the completion
channel with the wait result, or the signal channel; on the signal arm
`childAlive` is the outcome of the zero-signal liveness probe
(`Signal(syscall.Signal(0))` returned nil). -/
inductive RaceOutcome where
  | done (w : WaitResult)
  | signaled (childAlive : Bool)
deriving DecidableEq, Repr

/-- The select statement of `run.Main` (run.go:106-142), yielding the
recorded exit code, the interrupted flag, and whether the received signal
was forwarded to the child. -/
def resolveRace : RaceOutcome → Int × Bool × Bool
  | .done .success => (0, false, false)
  | .done (.exitError ps) => (exitCodeOf ps, false, false)
  | .done .otherError => (1, false, false)
  | .signaled alive => (130, true, alive)

/-- Observable effects of one orchestrator invocation, in order. -/
inductive RunEffect where
  | mkdirAll (path : Line)
  | mkdir (path : Line)
  | writeSummaryInit (path : Line)
  | createFile (path : Line)
  | startChild
  | forwardSignal
  | writeSummaryEnd (path : Line) (exitCode : Int) (interrupted : Bool)
  | removeAll (path : Line)
deriving DecidableEq, Repr

/-- The failures `run.Main` can surface, in source order. -/
inductive RunErr where
  | gitError
  | dirtyRepo
  | baseDirUnset
  | mkdirBaseFailed
  | mkdirExpFailed
  | writeInitFailed
  | createStdoutFailed
  | createStderrFailed
  | startFailed
  | writeEndFailed
  | commandFailed (code : Int)
deriving DecidableEq, Repr

/-- Environment of one orchestrator invocation: the outcome of every
external call `run.Main` makes, in the order it makes them. -/
structure RunEnv where
  repoStatus : Except Unit RepoStatus
  mkdirBaseOk : Bool
  mkdirExpOk : Bool
  writeInitOk : Bool
  createStdoutOk : Bool
  createStderrOk : Bool
  startOk : Bool
  race : RaceOutcome
  writeEndOk : Bool
deriving Repr

/-- The configuration fields `run.Main` reads. -/
structure RunConfig where
  BaseDir : Line
  SummaryFile : Line
  StdoutFile : Line
  StderrFile : Line
  Force : Bool
  CleanupOnFail : Bool
  NoPushd : Bool
deriving DecidableEq, Repr

/-- Go `run.Main` (run.go:20-166) as an effect-trace function: each
external call consumes its outcome from the environment; `filepath.Join`
is embedded as `/`-concatenation.  Mirrors the source order: repository
check, dirty-tree guard, base-dir guard, create base dir, create run dir,
write initial summary, create the two log files, start the child, race
completion against a signal, append the results block, then
cleanup-on-fail and the final error wrapping. -/
def runMain (cfg : RunConfig) (startTime : Timestamp) (env : RunEnv) :
    Except RunErr Unit × List RunEffect :=
  match env.repoStatus with
  | .error _ => (.error .gitError, [])
  | .ok repo =>
    if repo.IsDirty = true ∧ cfg.Force = false then (.error .dirtyRepo, [])
    else if cfg.BaseDir = [] then (.error .baseDirUnset, [])
    else
      let t0 := [RunEffect.mkdirAll cfg.BaseDir]
      if env.mkdirBaseOk = false then (.error .mkdirBaseFailed, t0)
      else
        let dirName := fmtMilli startTime ++ '_' ::
          (SanitizeBranchName repo.Branch ++ '_' :: repo.ShortHash)
        let expDir := cfg.BaseDir ++ '/' :: dirName
        let t1 := t0 ++ [RunEffect.mkdir expDir]
        if env.mkdirExpOk = false then (.error .mkdirExpFailed, t1)
        else
          let summaryPath := expDir ++ '/' :: cfg.SummaryFile
          let t2 := t1 ++ [RunEffect.writeSummaryInit summaryPath]
          if env.writeInitOk = false then (.error .writeInitFailed, t2)
          else
            let stdoutPath := expDir ++ '/' :: cfg.StdoutFile
            let stderrPath := expDir ++ '/' :: cfg.StderrFile
            let t3 := t2 ++ [RunEffect.createFile stdoutPath]
            if env.createStdoutOk = false then (.error .createStdoutFailed, t3)
            else
              let t4 := t3 ++ [RunEffect.createFile stderrPath]
              if env.createStderrOk = false then (.error .createStderrFailed, t4)
              else
                let t5 := t4 ++ [RunEffect.startChild]
                if env.startOk = false then
                  (.error .startFailed, t5 ++ [RunEffect.removeAll expDir])
                else
                  let rr := resolveRace env.race
                  let t6 := t5 ++ (if rr.2.2 then [RunEffect.forwardSignal] else [])
                  let t7 := t6 ++ [RunEffect.writeSummaryEnd summaryPath rr.1 rr.2.1]
                  if env.writeEndOk = false then (.error .writeEndFailed, t7)
                  else
                    let t8 := t7 ++ (if rr.1 ≠ 0 ∧ cfg.CleanupOnFail = true then
                      [RunEffect.removeAll expDir] else [])
                    if rr.1 ≠ 0 then (.error (.commandFailed rr.1), t8)
                    else (.ok (), t8)

/-- The dirty-tree guard of `experiment.Run` (experiment/run.go:40): the
run aborts before any effect exactly when the tree is dirty, the force
override is unset, and the configured `git.require_clean` allowance is
enabled.  Only the precondition segment differs from `run.Main`; it is
embedded as the guard decision. -/
def expRunDirtyGuard (repo : RepoStatus) (force requireClean : Bool) : Bool :=
  repo.IsDirty = true ∧ force = false ∧ requireClean = true

/-- Concrete configuration for orchestrator witnesses. -/
def cfgEx : RunConfig :=
  { BaseDir := str "runs", SummaryFile := str "summary.md",
    StdoutFile := str "stdout.log", StderrFile := str "stderr.log",
    Force := false, CleanupOnFail := false, NoPushd := false }

/-- Concrete clean repository snapshot for orchestrator witnesses. -/
def repoEx : RepoStatus :=
  ⟨true, false, str "main", str "abc1234", str "abc1234def"⟩

/-- Concrete dirty repository snapshot. -/
def repoDirtyEx : RepoStatus :=
  ⟨true, true, str "main", str "abc1234", str "abc1234def"⟩

/-- Environment in which every external call succeeds and the signal arm
wins the race with the child still alive. -/
def envSigEx : RunEnv :=
  { repoStatus := .ok repoEx, mkdirBaseOk := true, mkdirExpOk := true,
    writeInitOk := true, createStdoutOk := true, createStderrOk := true,
    startOk := true, race := .signaled true, writeEndOk := true }

/-- Environment in which the repository is dirty. -/
def envDirtyEx : RunEnv :=
  { repoStatus := .ok repoDirtyEx, mkdirBaseOk := true, mkdirExpOk := true,
    writeInitOk := true, createStdoutOk := true, createStderrOk := true,
    startOk := true, race := .done .success, writeEndOk := true }

/-- Environment in which spawning the child fails. -/
def envStartFailEx : RunEnv :=
  { repoStatus := .ok repoEx, mkdirBaseOk := true, mkdirExpOk := true,
    writeInitOk := true, createStdoutOk := true, createStderrOk := true,
    startOk := false, race := .done .success, writeEndOk := true }

theorem cutPfx?_append (p rest : List Char) :
    cutPfx? p (p ++ rest) = some rest := by
  induction p with
  | nil => rfl
  | cons a as ih => simp [cutPfx?, ih]

theorem cutPfx?_eq_some_iff {p s rest : List Char} :
    cutPfx? p s = some rest ↔ s = p ++ rest := by
  constructor
  · intro h
    induction p generalizing s with
    | nil =>
      simp only [cutPfx?, Option.some.injEq] at h
      simpa using h
    | cons a as ih =>
      cases s with
      | nil => simp [cutPfx?] at h
      | cons c cs =>
        by_cases hac : a = c
        · subst hac
          simp only [cutPfx?, if_pos rfl] at h
          simpa using ih h
        · simp [cutPfx?, hac] at h
  · intro h; subst h; exact cutPfx?_append p rest

theorem digit?_dChar : ∀ d, d < 10 → digit? (dChar d) = some d := by decide

theorem read2_pad2 {n : Nat} (h : n < 100) (rest : List Char) :
    read2 (pad2 n ++ rest) = some (n, rest) := by
  have h1 : n / 10 < 10 := Nat.div_lt_of_lt_mul (by omega)
  have h2 : n % 10 < 10 := Nat.mod_lt _ (by omega)
  simp [pad2, read2, digit?_dChar _ h1, digit?_dChar _ h2, Nat.div_add_mod]

theorem read3_pad3 {n : Nat} (h : n < 1000) (rest : List Char) :
    read3 (pad3 n ++ rest) = some (n, rest) := by
  have h1 : n / 100 < 10 := Nat.div_lt_of_lt_mul (by omega)
  have h2 : n / 10 % 10 < 10 := Nat.mod_lt _ (by omega)
  have h3 : n % 10 < 10 := Nat.mod_lt _ (by omega)
  simp only [pad3, read3, List.cons_append, List.nil_append,
    digit?_dChar _ h1, digit?_dChar _ h2, digit?_dChar _ h3]
  congr 2
  omega

theorem read4_pad4 {n : Nat} (h : n < 10000) (rest : List Char) :
    read4 (pad4 n ++ rest) = some (n, rest) := by
  have h1 : n / 1000 < 10 := Nat.div_lt_of_lt_mul (by omega)
  have h2 : n / 100 % 10 < 10 := Nat.mod_lt _ (by omega)
  have h3 : n / 10 % 10 < 10 := Nat.mod_lt _ (by omega)
  have h4 : n % 10 < 10 := Nat.mod_lt _ (by omega)
  simp only [pad4, read4, List.cons_append, List.nil_append,
    digit?_dChar _ h1, digit?_dChar _ h2, digit?_dChar _ h3, digit?_dChar _ h4]
  congr 2
  omega

theorem expectC_cons (c : Char) (rest : List Char) :
    expectC c (c :: rest) = some rest := by
  simp [expectC]

theorem read2_pad2_nil {n : Nat} (h : n < 100) :
    read2 (pad2 n) = some (n, []) := by
  have h1 : n / 10 < 10 := Nat.div_lt_of_lt_mul (by omega)
  have h2 : n % 10 < 10 := Nat.mod_lt _ (by omega)
  simp [pad2, read2, digit?_dChar _ h1, digit?_dChar _ h2, Nat.div_add_mod]

theorem natDigitsAux_fuel {n : Nat} : ∀ (f g : Nat), n < f → n < g →
    natDigitsAux f n = natDigitsAux g n := by
  induction n using Nat.strong_induction_on with
  | _ n ih =>
    intro f g h1 h2
    obtain ⟨f₁, rfl⟩ : ∃ k, f = k + 1 := ⟨f - 1, by omega⟩
    obtain ⟨f₂, rfl⟩ : ∃ k, g = k + 1 := ⟨g - 1, by omega⟩
    simp only [natDigitsAux]
    by_cases hn : n < 10
    · simp [hn]
    · have hlt : n / 10 < n := Nat.div_lt_self (by omega) (by omega)
      simp only [if_neg hn]
      rw [ih (n / 10) hlt f₁ f₂ (by omega) (by omega)]

theorem natDigits_eq (n : Nat) :
    natDigits n = if n < 10 then [dChar n] else natDigits (n / 10) ++ [dChar (n % 10)] := by
  by_cases h : n < 10
  · simp [natDigits, natDigitsAux, h]
  · simp only [natDigits, natDigitsAux, if_neg h]
    congr 1
    exact natDigitsAux_fuel _ _ (by omega) (Nat.lt_succ_self _)

theorem allDigits_append (a b : List Char) :
    allDigits (a ++ b) = (allDigits a && allDigits b) := by
  induction a with
  | nil => simp [allDigits]
  | cons c cs ih => simp [allDigits, ih, Bool.and_assoc]

theorem digitsVal_append_digit (xs : List Char) {d : Nat} (h : d < 10) :
    digitsVal (xs ++ [dChar d]) = digitsVal xs * 10 + d := by
  simp [digitsVal, List.foldl_append, digit?_dChar _ h]

theorem allDigits_natDigits (n : Nat) : allDigits (natDigits n) = true := by
  induction n using Nat.strong_induction_on with
  | _ n ih =>
    rw [natDigits_eq]
    by_cases h : n < 10
    · simp [h, allDigits, digit?_dChar _ h]
    · rw [if_neg h, allDigits_append]
      have hd : n % 10 < 10 := Nat.mod_lt _ (by omega)
      simp [ih (n / 10) (Nat.div_lt_self (by omega) (by omega)),
        allDigits, digit?_dChar _ hd]

theorem digitsVal_natDigits (n : Nat) : digitsVal (natDigits n) = n := by
  induction n using Nat.strong_induction_on with
  | _ n ih =>
    rw [natDigits_eq]
    by_cases h : n < 10
    · simp [h, digitsVal, digit?_dChar _ h]
    · rw [if_neg h, digitsVal_append_digit _ (Nat.mod_lt _ (by omega)),
        ih (n / 10) (Nat.div_lt_self (by omega) (by omega))]
      omega

theorem natDigits_shape (n : Nat) :
    ∃ d rest, natDigits n = dChar d :: rest ∧ d < 10 := by
  induction n using Nat.strong_induction_on with
  | _ n ih =>
    rw [natDigits_eq]
    by_cases h : n < 10
    · exact ⟨n, [], by simp [h], h⟩
    · obtain ⟨d, rest, heq, hd⟩ := ih (n / 10) (Nat.div_lt_self (by omega) (by omega))
      exact ⟨d, rest ++ [dChar (n % 10)], by simp [h, heq], hd⟩

theorem dChar_not_sign : ∀ d, d < 10 →
    dChar d ≠ Char.ofNat 45 ∧ dChar d ≠ Char.ofNat 43 := by decide

theorem atoi_natDigits (n : Nat) : atoi (natDigits n) = some (n : Int) := by
  obtain ⟨d, rest, heq, hd⟩ := natDigits_shape n
  have hall := allDigits_natDigits n
  have hval := digitsVal_natDigits n
  obtain ⟨h45, h43⟩ := dChar_not_sign d hd
  rw [heq] at hall hval ⊢
  simp [atoi, h45, h43, hall, hval]

theorem atoi_intStr (i : Int) : atoi (intStr i) = some i := by
  by_cases h : i < 0
  · have hall := allDigits_natDigits i.natAbs
    have hval := digitsVal_natDigits i.natAbs
    obtain ⟨d, rest, heq, _⟩ := natDigits_shape i.natAbs
    rw [intStr, if_pos h, atoi, if_pos rfl, if_pos ⟨by simp [heq], hall⟩, hval]
    simp only [Option.some.injEq]
    omega
  · rw [intStr, if_neg h, atoi_natDigits]
    simp only [Option.some.injEq]
    omega

theorem parseRFC3339_fmt {t : Timestamp} (h : t.Valid) :
    parseRFC3339 (fmtRFC3339 t) = some (truncSec t) := by
  obtain ⟨hr, hy, ho⟩ := h
  have hmo : t.month < 100 := by
    simp only [tsRangesOk, decide_eq_true_eq] at hr; omega
  have hd : t.day < 100 := by
    have : daysInMonth t.year t.month ≤ 31 := by
      unfold daysInMonth; split <;> split <;> simp_all
    simp only [tsRangesOk, decide_eq_true_eq] at hr; omega
  have hh : t.hour < 100 := by
    simp only [tsRangesOk, decide_eq_true_eq] at hr; omega
  have hmi : t.minute < 100 := by
    simp only [tsRangesOk, decide_eq_true_eq] at hr; omega
  have hs : t.second < 100 := by
    simp only [tsRangesOk, decide_eq_true_eq] at hr; omega
  simp only [parseRFC3339, fmtRFC3339, read4_pad4 hy, expectC_cons,
    read2_pad2 hmo, read2_pad2 hd, read2_pad2 hh, read2_pad2 hmi, read2_pad2 hs]
  by_cases h0 : t.offsetMin = 0
  · simp [zoneChars, h0, parseFrac, parseZone, hr, truncSec]
  · have hzf : parseFrac (zoneChars t.offsetMin) = (0, zoneChars t.offsetMin) := by
      unfold zoneChars
      rw [if_neg h0]
      split <;> rfl
    have hhh : t.offsetMin.natAbs / 60 < 100 := by omega
    have hmm : t.offsetMin.natAbs % 60 < 100 := by omega
    have hmag : parseOffMag (pad2 (t.offsetMin.natAbs / 60) ++ (':' ::
        pad2 (t.offsetMin.natAbs % 60))) = some (t.offsetMin.natAbs : Int) := by
      have hc : True ∧ t.offsetMin.natAbs / 60 ≤ 23 ∧
          t.offsetMin.natAbs % 60 ≤ 59 := ⟨trivial, by omega, by omega⟩
      simp only [parseOffMag, read2_pad2 hhh, expectC_cons, read2_pad2_nil hmm]
      simp only [List.nil_eq, true_and] at hc ⊢
      rw [if_pos hc]
      simp only [Option.some.injEq]
      omega
    simp only [hzf]
    by_cases hneg : t.offsetMin < 0
    · have hz : zoneChars t.offsetMin = '-' :: (pad2 (t.offsetMin.natAbs / 60) ++ (':' ::
          pad2 (t.offsetMin.natAbs % 60))) := by
        unfold zoneChars; rw [if_neg h0, if_pos hneg]
      simp only [hz, parseZone, hmag, Option.map_some, Option.map_some']
      rw [if_pos hr]
      simp only [truncSec, Option.some.injEq, Timestamp.mk.injEq, true_and, and_true]
      omega
    · have hz : zoneChars t.offsetMin = '+' :: (pad2 (t.offsetMin.natAbs / 60) ++ (':' ::
          pad2 (t.offsetMin.natAbs % 60))) := by
        unfold zoneChars; rw [if_neg h0, if_neg hneg]
      simp only [hz, parseZone, hmag]
      rw [if_pos hr]
      simp only [truncSec, Option.some.injEq, Timestamp.mk.injEq, true_and, and_true]
      omega

theorem trimBackticks_wrap (v : Line) :
    trimBackticks (backtick :: (v ++ [backtick])) = some v := by
  have hc : backtick :: (v ++ [backtick]) = (backtick :: v) ++ [backtick] := by simp
  rw [trimBackticks, if_neg]
  · rw [hc]
    simp [List.dropLast_concat]
  · push_neg
    refine ⟨by simp, rfl, ?_⟩
    rw [hc, List.getLast?_concat]

theorem parseLinesAux_cons_ok {st st' : Bool × RunInfo} {l : Line}
    (ls : List Line) (h : processLine st l = (st', none)) :
    parseLinesAux st (l :: ls) = parseLinesAux st' ls := by
  simp [parseLinesAux, h]

theorem parseLinesAux_append_ok {st st' : Bool × RunInfo} {a : List Line}
    (b : List Line) (h : parseLinesAux st a = (st', none)) :
    parseLinesAux st (a ++ b) = parseLinesAux st' b := by
  induction a generalizing st with
  | nil =>
    simp only [parseLinesAux] at h
    cases h
    simp
  | cons l ls ih =>
    simp only [parseLinesAux] at h ⊢
    cases hp : processLine st l with
    | mk st₁ e =>
      cases e with
      | none => rw [hp] at h; exact ih h
      | some err => rw [hp] at h; simp at h

theorem processLine_skip {info : RunInfo} (l : Line)
    (h : hasPfx (str "```") l = false) :
    processLine (true, info) l = ((true, info), none) := by
  simp [processLine, h]

theorem parseLinesAux_content {info : RunInfo} {content : List Line}
    (rest : List Line) (h : ∀ l ∈ content, hasPfx (str "```") l = false) :
    parseLinesAux (true, info) (content ++ rest) =
      parseLinesAux (true, info) rest := by
  induction content with
  | nil => simp
  | cons l ls ih =>
    rw [List.cons_append,
      parseLinesAux_cons_ok _ (processLine_skip l (h l (by simp))),
      ih (fun x hx => h x (by simp [hx]))]

theorem cutPfx?_mismatch : ∀ {p q : List Char}, mismatchWithin p q = true →
    ∀ v, cutPfx? p (q ++ v) = none := by
  intro p q h v
  induction p generalizing q with
  | nil => cases q <;> simp [mismatchWithin] at h
  | cons a as ih =>
    cases q with
    | nil => simp [mismatchWithin] at h
    | cons b bs =>
      simp only [mismatchWithin, Bool.or_eq_true, decide_eq_true_eq] at h
      rcases h with h | h
      · simp [cutPfx?, h]
      · by_cases hab : a = b
        · simp [cutPfx?, hab, ih h]
        · simp [cutPfx?, hab]

theorem hasPfx_mismatch {p q : List Char} (h : mismatchWithin p q = true)
    (v : List Char) : hasPfx p (q ++ v) = false := by
  simp [hasPfx, cutPfx?_mismatch h v]

theorem containsStr_append_fixed {m fixed v : Line} (h1 : scanSafe m fixed = true)
    (h2 : containsStr v m = false) : containsStr (fixed ++ v) m = false := by
  induction fixed with
  | nil => simpa
  | cons c rest ih =>
    simp only [scanSafe, Bool.and_eq_true] at h1
    rw [List.cons_append, containsStr]
    have : c :: (rest ++ v) = (c :: rest) ++ v := by simp
    rw [this, hasPfx_mismatch h1.1]
    simpa using ih h1.2

theorem containsStr_no_star {v : Line} (hv : '*' ∉ v) (ms : Line) :
    containsStr v ('*' :: ms) = false := by
  induction v with
  | nil => simp [containsStr, hasPfx, cutPfx?]
  | cons c rest ih =>
    have hc : c ≠ '*' := fun h => hv (by simp [h])
    have hc2 : ('*' : Char) ≠ c := fun h => hc h.symm
    rw [containsStr]
    have h1 : hasPfx ('*' :: ms) (c :: rest) = false := by
      simp [hasPfx, cutPfx?, hc2]
    rw [h1]
    simpa using ih (fun h => hv (by simp [h]))

theorem processLine_plain {i : RunInfo} (l : Line) (h : plainLine l = true) :
    processLine (false, i) l = ((false, i), none) := by
  simp only [plainLine, Bool.and_eq_true, Bool.not_eq_true',
    Option.isNone_iff_eq_none] at h
  obtain ⟨⟨⟨⟨⟨⟨⟨h0, h1⟩, h2⟩, h3⟩, h4⟩, h5⟩, h6⟩, h7⟩ := h
  simp [processLine, h0, h1, h2, h3, h4, h5, h6, h7, handleRest]

theorem processLine_dt {i : RunInfo} {t : Timestamp} (h : t.Valid) :
    processLine (false, i) (dtLine t) =
      ((false, { i with StartTime := truncSec t }), none) := by
  have h1 : processLine (false, i) (dtLine t) =
      handleStart false i (fmtRFC3339 t) := rfl
  rw [h1, handleStart, parseRFC3339_fmt h]

theorem processLine_branch (i : RunInfo) (v : Line) :
    processLine (false, i) (branchLine v) =
      ((false, { i with Branch := v }), none) := by
  have h1 : processLine (false, i) (branchLine v) =
      handleBranch false i (backtick :: (v ++ [backtick])) := rfl
  rw [h1, handleBranch, trimBackticks_wrap]

theorem processLine_hash (i : RunInfo) (v : Line) :
    processLine (false, i) (hashLine v) =
      ((false, { i with CommitHash := v }), none) := by
  have h1 : processLine (false, i) (hashLine v) =
      handleHash false i (backtick :: (v ++ [backtick])) := rfl
  rw [h1, handleHash, trimBackticks_wrap]

theorem processLine_cmd (i : RunInfo) (v : Line) :
    processLine (false, i) (cmdLine v) =
      ((false, { i with Command := v }), none) := by
  have h1 : processLine (false, i) (cmdLine v) =
      handleCommand false i (backtick :: (v ++ [backtick])) := rfl
  rw [h1, handleCommand, trimBackticks_wrap]

theorem processLine_host {i : RunInfo} {v : Line} (hv : '*' ∉ v) :
    processLine (false, i) (hostLine v) = ((false, i), none) := by
  have h1 : processLine (false, i) (hostLine v) =
      handleRest false i (hostLine v) := rfl
  have h2 : hostLine v = str "- **Hostname**: `" ++ (v ++ [backtick]) := rfl
  have hm : str "**Terminated by user**" =
      '*' :: str "*Terminated by user**" := rfl
  have hvb : '*' ∉ v ++ [backtick] := by
    intro hmem
    rcases List.mem_append.mp hmem with h | h
    · exact hv h
    · simp [backtick] at h
  have hnostar : containsStr (v ++ [backtick]) (str "**Terminated by user**") = false := by
    rw [hm]
    exact containsStr_no_star hvb _
  rw [h1, handleRest, h2, containsStr_append_fixed (by decide) hnostar]
  simp

theorem processLine_wd {i : RunInfo} {v : Line} (hv : '*' ∉ v) :
    processLine (false, i) (wdLine v) = ((false, i), none) := by
  have h1 : processLine (false, i) (wdLine v) =
      handleRest false i (wdLine v) := rfl
  have h2 : wdLine v = str "- **Working directory**: `" ++ (v ++ [backtick]) := rfl
  have hm : str "**Terminated by user**" =
      '*' :: str "*Terminated by user**" := rfl
  have hvb : '*' ∉ v ++ [backtick] := by
    intro hmem
    rcases List.mem_append.mp hmem with h | h
    · exact hv h
    · simp [backtick] at h
  have hnostar : containsStr (v ++ [backtick]) (str "**Terminated by user**") = false := by
    rw [hm]
    exact containsStr_no_star hvb _
  rw [h1, handleRest, h2, containsStr_append_fixed (by decide) hnostar]
  simp

theorem processLine_dur {i : RunInfo} {d : Line} (hd : '*' ∉ d) :
    processLine (false, i) (durLine d) = ((false, i), none) := by
  have h1 : processLine (false, i) (durLine d) =
      handleRest false i (durLine d) := rfl
  have hm : str "**Terminated by user**" =
      '*' :: str "*Terminated by user**" := rfl
  have hnostar : containsStr d (str "**Terminated by user**") = false := by
    rw [hm]; exact containsStr_no_star hd _
  rw [h1, handleRest, durLine, containsStr_append_fixed (by decide) hnostar]
  simp

theorem processLine_exit (i : RunInfo) (code : Int) :
    processLine (false, i) (exitLine code) =
      ((false, { i with IsRunning := false, ExitStatus := code }), none) := by
  have h1 : processLine (false, i) (exitLine code) =
      handleExit false i (intStr code) := rfl
  rw [h1, handleExit, atoi_intStr]

theorem processLine_end {i : RunInfo} {t : Timestamp} (h : t.Valid) :
    processLine (false, i) (endLine t) =
      ((false, { i with EndTime := truncSec t }), none) := by
  have h1 : processLine (false, i) (endLine t) =
      handleEnd false i (fmtRFC3339 t) := rfl
  rw [h1, handleEnd, parseRFC3339_fmt h]

theorem processLine_term (i : RunInfo) :
    processLine (false, i) termLine =
      ((false, { i with Interrupted := true }), none) := rfl

theorem processLine_fence_enter {i : RunInfo} (l : Line)
    (h : hasPfx (str "```") l = true) :
    processLine (false, i) l = ((true, i), none) := by
  simp [processLine, h]

theorem processLine_fence_exit (i : RunInfo) :
    processLine (true, i) (str "```") = ((false, i), none) := rfl

theorem allDigits_no_star {l : List Char} (h : allDigits l = true) : '*' ∉ l := by
  induction l with
  | nil => simp
  | cons c rest ih =>
    simp only [allDigits, Bool.and_eq_true] at h
    intro hmem
    rcases List.mem_cons.mp hmem with he | hm
    · rw [← he] at h
      simp [digit?] at h
    · exact ih h.2 hm

theorem natDigits_no_star {n : Nat} : '*' ∉ natDigits n :=
  allDigits_no_star (allDigits_natDigits n)

theorem intStr_no_star {i : Int} : '*' ∉ intStr i := by
  intro hmem
  rw [intStr] at hmem
  split at hmem
  · rcases List.mem_cons.mp hmem with h | h
    · simp at h
    · exact natDigits_no_star h
  · exact natDigits_no_star hmem

theorem formatDuration_no_star {ns : Int} : '*' ∉ formatDuration ns := by
  have hh : '*' ∉ str "h " := by decide
  have hm2 : '*' ∉ str "m " := by decide
  have hs : '*' ∉ str "s" := by decide
  intro hmem
  simp only [formatDuration] at hmem
  split at hmem
  · rcases List.mem_append.mp hmem with h | h
    · exact intStr_no_star h
    rcases List.mem_append.mp h with h | h
    · exact hh h
    rcases List.mem_append.mp h with h | h
    · exact intStr_no_star h
    rcases List.mem_append.mp h with h | h
    · exact hm2 h
    rcases List.mem_append.mp h with h | h
    · exact intStr_no_star h
    · exact hs h
  · split at hmem
    · rcases List.mem_append.mp hmem with h | h
      · exact intStr_no_star h
      rcases List.mem_append.mp h with h | h
      · exact hm2 h
      rcases List.mem_append.mp h with h | h
      · exact intStr_no_star h
      · exact hs h
    · rcases List.mem_append.mp hmem with h | h
      · exact intStr_no_star h
      · exact hs h

theorem formatGitStatusLines_no_fence (repo : RepoStatus) :
    ∀ l ∈ formatGitStatusLines repo, hasPfx (str "```") l = false := by
  intro l hl
  rw [formatGitStatusLines] at hl
  split at hl
  · rcases List.mem_singleton.mp hl with rfl
    decide
  · rcases List.mem_cons.mp hl with rfl | h
    · rfl
    · split at h
      · fin_cases h <;> decide
      · rcases List.mem_singleton.mp h with rfl
        decide

theorem parse_init_fold (i : RunInfo) {startTs : Timestamp} (repo snap : RepoStatus)
    (command : List Line) {hostname directory : Line}
    {commitDetails gitDiff sysInfo : List Line}
    (hv : startTs.Valid)
    (hhost : '*' ∉ hostname) (hdir : '*' ∉ directory)
    (hcd : ∀ l ∈ commitDetails, hasPfx (str "```") l = false)
    (hgd : ∀ l ∈ gitDiff, hasPfx (str "```") l = false)
    (hsi : ∀ l ∈ sysInfo, hasPfx (str "```") l = false)
    (rest : List Line) :
    parseLinesAux (false, i)
      (WriteSummaryFileInitLines startTs repo snap command hostname directory
        commitDetails gitDiff sysInfo ++ rest) =
      parseLinesAux (false,
        { i with StartTime := truncSec startTs, Branch := repo.Branch,
                 CommitHash := repo.FullHash, Command := joinSpace command }) rest := by
  rw [WriteSummaryFileInitLines]
  simp only [List.cons_append, List.append_assoc, List.nil_append]
  rw [parseLinesAux_cons_ok _ (processLine_plain (str "# Experiment Summary") (by decide))]
  rw [parseLinesAux_cons_ok _ (processLine_plain (str "") (by decide))]
  rw [parseLinesAux_cons_ok _ (processLine_plain (str "## Metadata") (by decide))]
  rw [parseLinesAux_cons_ok _ (processLine_dt hv)]
  rw [parseLinesAux_cons_ok _ (processLine_branch _ _)]
  rw [parseLinesAux_cons_ok _ (processLine_hash _ _)]
  rw [parseLinesAux_cons_ok _ (processLine_cmd _ _)]
  rw [parseLinesAux_cons_ok _ (processLine_host hhost)]
  rw [parseLinesAux_cons_ok _ (processLine_wd hdir)]
  rw [parseLinesAux_cons_ok _ (processLine_plain (str "") (by decide))]
  rw [parseLinesAux_cons_ok _ (processLine_plain (str "## Latest Commit Details") (by decide))]
  rw [parseLinesAux_cons_ok _ (processLine_fence_enter (str "```diff") (by decide))]
  rw [parseLinesAux_content _ hcd]
  rw [parseLinesAux_cons_ok _ (processLine_fence_exit _)]
  rw [parseLinesAux_cons_ok _ (processLine_plain (str "") (by decide))]
  rw [parseLinesAux_cons_ok _ (processLine_plain (str "## Git Status") (by decide))]
  rw [parseLinesAux_cons_ok _ (processLine_fence_enter (str "```") (by decide))]
  rw [parseLinesAux_content _ (formatGitStatusLines_no_fence snap)]
  rw [parseLinesAux_cons_ok _ (processLine_skip (str "") (by decide))]
  rw [parseLinesAux_cons_ok _ (processLine_fence_exit _)]
  rw [parseLinesAux_cons_ok _ (processLine_plain (str "") (by decide))]
  rw [parseLinesAux_cons_ok _ (processLine_plain (str "## Uncommitted Changes (Diff)") (by decide))]
  rw [parseLinesAux_cons_ok _ (processLine_fence_enter (str "```diff") (by decide))]
  rw [parseLinesAux_content _ hgd]
  rw [parseLinesAux_cons_ok _ (processLine_fence_exit _)]
  rw [parseLinesAux_cons_ok _ (processLine_plain (str "") (by decide))]
  rw [parseLinesAux_cons_ok _ (processLine_plain (str "## Environment Info") (by decide))]
  rw [parseLinesAux_cons_ok _ (processLine_fence_enter (str "```") (by decide))]
  rw [parseLinesAux_content _ hsi]
  rw [parseLinesAux_cons_ok _ (processLine_fence_exit _)]

theorem parse_end_fold (i : RunInfo) (startTs : Timestamp) {endTs : Timestamp}
    (code : Int) (intr : Bool) (hv : endTs.Valid) :
    parseLinesAux (false, i) (WriteSummaryFileEndLines startTs endTs code intr) =
      ((false,
        { i with EndTime := truncSec endTs, IsRunning := false,
                 ExitStatus := code,
                 Interrupted := (intr || i.Interrupted) }), none) := by
  rw [WriteSummaryFileEndLines]
  simp only [List.cons_append, List.append_assoc, List.nil_append]
  rw [parseLinesAux_cons_ok _ (processLine_plain (str "") (by decide))]
  rw [parseLinesAux_cons_ok _ (processLine_plain (str "## Execution Results") (by decide))]
  rw [parseLinesAux_cons_ok _ (processLine_end hv)]
  rw [parseLinesAux_cons_ok _ (processLine_dur formatDuration_no_star)]
  rw [parseLinesAux_cons_ok _ (processLine_exit _ _)]
  cases intr with
  | true =>
    rw [if_pos rfl, parseLinesAux_cons_ok _ (processLine_term _)]
    rfl
  | false =>
    rw [if_neg (by simp)]
    rfl

/-- Full write-then-parse round trip at second granularity: writing the
initial block and the results block and parsing the file back recovers
every labelled field, with both timestamps truncated to whole seconds. -/
theorem parse_roundtrip (d f : Line) (startTs endTs : Timestamp)
    (repo snap : RepoStatus) (command : List Line) (hostname directory : Line)
    (commitDetails gitDiff sysInfo : List Line) (code : Int) (intr : Bool)
    (hv1 : startTs.Valid) (hv2 : endTs.Valid)
    (hhost : '*' ∉ hostname) (hdir : '*' ∉ directory)
    (hcd : ∀ l ∈ commitDetails, hasPfx (str "```") l = false)
    (hgd : ∀ l ∈ gitDiff, hasPfx (str "```") l = false)
    (hsi : ∀ l ∈ sysInfo, hasPfx (str "```") l = false) :
    ParseRunInfo d f
      (WriteSummaryFileInitLines startTs repo snap command hostname directory
        commitDetails gitDiff sysInfo ++
       WriteSummaryFileEndLines startTs endTs code intr) =
      ({ Directory := d, File := f, Command := joinSpace command,
         StartTime := truncSec startTs, EndTime := truncSec endTs,
         ExitStatus := code, IsRunning := false, Branch := repo.Branch,
         CommitHash := repo.FullHash, Interrupted := intr }, none) := by
  simp only [ParseRunInfo]
  rw [parse_init_fold _ repo snap command hv1 hhost hdir hcd hgd hsi]
  rw [parse_end_fold _ startTs code intr hv2]
  cases intr <;> rfl

/-- C1 counterexample: a start time with 500 ms is written by
`WriteSummaryFileInit` in RFC3339 whole seconds, so parsing the round-trip
file loses the milliseconds — the recovered start time differs from the
supplied one even at millisecond granularity (while the parse succeeds). -/
theorem c1_millisecond_loss_counterexample :
    (ParseRunInfo (str "runs/x/") (str "summary.md")
      (WriteSummaryFileInitLines ⟨2024, 3, 15, 10, 30, 0, 500000000, 0⟩
        ⟨true, false, str "main", str "abcdef0", str "abcdef0123"⟩
        ⟨true, false, str "main", str "abcdef0", str "abcdef0123"⟩
        [str "run.sh"] (str "host") (str "runs/x/")
        [str ""] [str ""] [str ""] ++
       WriteSummaryFileEndLines ⟨2024, 3, 15, 10, 30, 0, 500000000, 0⟩
        ⟨2024, 3, 15, 10, 30, 5, 0, 0⟩ 0 false)).1.StartTime ≠
      truncMilli ⟨2024, 3, 15, 10, 30, 0, 500000000, 0⟩ ∧
    (ParseRunInfo (str "runs/x/") (str "summary.md")
      (WriteSummaryFileInitLines ⟨2024, 3, 15, 10, 30, 0, 500000000, 0⟩
        ⟨true, false, str "main", str "abcdef0", str "abcdef0123"⟩
        ⟨true, false, str "main", str "abcdef0", str "abcdef0123"⟩
        [str "run.sh"] (str "host") (str "runs/x/")
        [str ""] [str ""] [str ""] ++
       WriteSummaryFileEndLines ⟨2024, 3, 15, 10, 30, 0, 500000000, 0⟩
        ⟨2024, 3, 15, 10, 30, 5, 0, 0⟩ 0 false)).2 = none := by
  rw [parse_roundtrip _ _ _ _ _ _ _ _ _ _ _ _ _ _ (by decide) (by decide)
    (by decide) (by decide) (by decide) (by decide) (by decide)]
  constructor
  · intro h
    simp only [truncSec, truncMilli] at h
    have := congrArg Timestamp.nanos h
    simp at this
  · rfl

/-- C1 (amended): for every valid (startTime, repoStatus, command) input and
every (endTime, exitCode, interrupted) result, parsing the file produced by
`WriteSummaryFileInit` followed by `WriteSummaryFileEnd` with `ParseRunInfo`
recovers startTime, endTime, command (joined), exitStatus, branch,
commitHash and interrupted exactly as supplied, with timestamp loss
permitted only below ONE-SECOND granularity (RFC3339 formatting drops all
fractional seconds, so millisecond precision is not preserved). -/
theorem c1_roundtrip_second_granularity (d f : Line) (startTs endTs : Timestamp)
    (repo snap : RepoStatus) (command : List Line) (hostname directory : Line)
    (commitDetails gitDiff sysInfo : List Line) (code : Int) (intr : Bool)
    (hv1 : startTs.Valid) (hv2 : endTs.Valid)
    (hhost : '*' ∉ hostname) (hdir : '*' ∉ directory)
    (hcd : ∀ l ∈ commitDetails, hasPfx (str "```") l = false)
    (hgd : ∀ l ∈ gitDiff, hasPfx (str "```") l = false)
    (hsi : ∀ l ∈ sysInfo, hasPfx (str "```") l = false) :
    ParseRunInfo d f
      (WriteSummaryFileInitLines startTs repo snap command hostname directory
        commitDetails gitDiff sysInfo ++
       WriteSummaryFileEndLines startTs endTs code intr) =
      ({ Directory := d, File := f, Command := joinSpace command,
         StartTime := truncSec startTs, EndTime := truncSec endTs,
         ExitStatus := code, IsRunning := false, Branch := repo.Branch,
         CommitHash := repo.FullHash, Interrupted := intr }, none) :=
  parse_roundtrip d f startTs endTs repo snap command hostname directory
    commitDetails gitDiff sysInfo code intr hv1 hv2 hhost hdir hcd hgd hsi

/-- C1 witness: the amended round trip at one concrete run record. -/
theorem c1_roundtrip_witness :
    (⟨2025, 3, 24, 0, 34, 51, 0, 60⟩ : Timestamp).Valid ∧
    ParseRunInfo (str "runs/") (str "summary.md")
      (WriteSummaryFileInitLines ⟨2025, 3, 24, 0, 34, 51, 0, 60⟩
        ⟨true, false, str "main", str "7a9162c", str "7a9162c4ad32037a"⟩
        ⟨true, false, str "main", str "7a9162c", str "7a9162c4ad32037a"⟩
        [str "sleep", str "5"] (str "host") (str "runs/")
        [str "commit 7a9162c"] [str "+x"] [str "Linux"] ++
       WriteSummaryFileEndLines ⟨2025, 3, 24, 0, 34, 51, 0, 60⟩
        ⟨2025, 3, 24, 0, 34, 56, 0, 60⟩ 0 false) =
      ({ Directory := str "runs/", File := str "summary.md",
         Command := joinSpace [str "sleep", str "5"],
         StartTime := truncSec ⟨2025, 3, 24, 0, 34, 51, 0, 60⟩,
         EndTime := truncSec ⟨2025, 3, 24, 0, 34, 56, 0, 60⟩,
         ExitStatus := 0, IsRunning := false, Branch := str "main",
         CommitHash := str "7a9162c4ad32037a", Interrupted := false }, none) :=
  ⟨by decide,
   c1_roundtrip_second_granularity (str "runs/") (str "summary.md")
     ⟨2025, 3, 24, 0, 34, 51, 0, 60⟩ ⟨2025, 3, 24, 0, 34, 56, 0, 60⟩
     ⟨true, false, str "main", str "7a9162c", str "7a9162c4ad32037a"⟩
     ⟨true, false, str "main", str "7a9162c", str "7a9162c4ad32037a"⟩
     [str "sleep", str "5"] (str "host") (str "runs/")
     [str "commit 7a9162c"] [str "+x"] [str "Linux"] 0 false
     (by decide) (by decide) (by decide) (by decide) (by decide) (by decide)
     (by decide)⟩

/-- C6: a record file containing only the initial block (no results block
appended) parses successfully with `IsRunning = true`, `ExitStatus` at its
zero value, and `Interrupted = false`. -/
theorem c6_initial_block_is_running (d f : Line) (startTs : Timestamp)
    (repo snap : RepoStatus) (command : List Line) (hostname directory : Line)
    (commitDetails gitDiff sysInfo : List Line)
    (hv : startTs.Valid)
    (hhost : '*' ∉ hostname) (hdir : '*' ∉ directory)
    (hcd : ∀ l ∈ commitDetails, hasPfx (str "```") l = false)
    (hgd : ∀ l ∈ gitDiff, hasPfx (str "```") l = false)
    (hsi : ∀ l ∈ sysInfo, hasPfx (str "```") l = false) :
    (ParseRunInfo d f
      (WriteSummaryFileInitLines startTs repo snap command hostname directory
        commitDetails gitDiff sysInfo)).2 = none ∧
    (ParseRunInfo d f
      (WriteSummaryFileInitLines startTs repo snap command hostname directory
        commitDetails gitDiff sysInfo)).1.IsRunning = true ∧
    (ParseRunInfo d f
      (WriteSummaryFileInitLines startTs repo snap command hostname directory
        commitDetails gitDiff sysInfo)).1.ExitStatus = 0 ∧
    (ParseRunInfo d f
      (WriteSummaryFileInitLines startTs repo snap command hostname directory
        commitDetails gitDiff sysInfo)).1.Interrupted = false := by
  have h := parse_init_fold (initialRunInfo d f)
    repo snap command hv hhost hdir hcd hgd hsi []
  rw [List.append_nil] at h
  simp only [ParseRunInfo, h]
  exact ⟨rfl, rfl, rfl, rfl⟩

/-- C6 witness: one concrete initial-only record file. -/
theorem c6_initial_block_witness :
    (⟨2025, 3, 24, 0, 34, 51, 0, 60⟩ : Timestamp).Valid ∧
    (ParseRunInfo (str "runs/") (str "summary.md")
      (WriteSummaryFileInitLines ⟨2025, 3, 24, 0, 34, 51, 0, 60⟩
        ⟨true, true, str "main", str "7a9162c", str "7a9162c4ad32037a"⟩
        ⟨true, true, str "main", str "7a9162c", str "7a9162c4ad32037a"⟩
        [str "sleep", str "5"] (str "host") (str "runs/")
        [str "commit 7a9162c"] [str "+x"] [str "Linux"])).2 = none ∧
    (ParseRunInfo (str "runs/") (str "summary.md")
      (WriteSummaryFileInitLines ⟨2025, 3, 24, 0, 34, 51, 0, 60⟩
        ⟨true, true, str "main", str "7a9162c", str "7a9162c4ad32037a"⟩
        ⟨true, true, str "main", str "7a9162c", str "7a9162c4ad32037a"⟩
        [str "sleep", str "5"] (str "host") (str "runs/")
        [str "commit 7a9162c"] [str "+x"] [str "Linux"])).1.IsRunning = true ∧
    (ParseRunInfo (str "runs/") (str "summary.md")
      (WriteSummaryFileInitLines ⟨2025, 3, 24, 0, 34, 51, 0, 60⟩
        ⟨true, true, str "main", str "7a9162c", str "7a9162c4ad32037a"⟩
        ⟨true, true, str "main", str "7a9162c", str "7a9162c4ad32037a"⟩
        [str "sleep", str "5"] (str "host") (str "runs/")
        [str "commit 7a9162c"] [str "+x"] [str "Linux"])).1.ExitStatus = 0 ∧
    (ParseRunInfo (str "runs/") (str "summary.md")
      (WriteSummaryFileInitLines ⟨2025, 3, 24, 0, 34, 51, 0, 60⟩
        ⟨true, true, str "main", str "7a9162c", str "7a9162c4ad32037a"⟩
        ⟨true, true, str "main", str "7a9162c", str "7a9162c4ad32037a"⟩
        [str "sleep", str "5"] (str "host") (str "runs/")
        [str "commit 7a9162c"] [str "+x"] [str "Linux"])).1.Interrupted = false :=
  ⟨by decide,
   c6_initial_block_is_running (str "runs/") (str "summary.md")
     ⟨2025, 3, 24, 0, 34, 51, 0, 60⟩
     ⟨true, true, str "main", str "7a9162c", str "7a9162c4ad32037a"⟩
     ⟨true, true, str "main", str "7a9162c", str "7a9162c4ad32037a"⟩
     [str "sleep", str "5"] (str "host") (str "runs/")
     [str "commit 7a9162c"] [str "+x"] [str "Linux"]
     (by decide) (by decide) (by decide) (by decide) (by decide) (by decide)⟩

theorem parseLinesAux_cons_err {st st' : Bool × RunInfo} {l : Line} {e : PErr}
    (ls : List Line) (h : processLine st l = (st', some e)) :
    parseLinesAux st (l :: ls) = (st', some e) := by
  simp [parseLinesAux, h]

/-- C7: in a record file whose branch (or commit hash) value line is not
properly enclosed in a backtick pair, and whose preceding lines scan
cleanly outside a code fence, `ParseRunInfo` aborts with the error specific
to that field instead of returning a silently empty value. -/
theorem c7_unterminated_backtick_field_error (d f : Line) (pre suf : List Line)
    (i : RunInfo) (afterB afterH : Line)
    (hpre : parseLinesAux (false, initialRunInfo d f) pre = ((false, i), none))
    (hb : trimBackticks afterB = none) (hh : trimBackticks afterH = none) :
    (ParseRunInfo d f (pre ++ (str "- **Branch**: " ++ afterB) :: suf)).2 =
      some PErr.branchField ∧
    (ParseRunInfo d f (pre ++ (str "- **Commit hash**: " ++ afterH) :: suf)).2 =
      some PErr.commitHash := by
  constructor
  · have h1 : processLine (false, i) (str "- **Branch**: " ++ afterB) =
        handleBranch false i afterB := rfl
    simp only [ParseRunInfo, parseLinesAux_append_ok _ hpre]
    rw [parseLinesAux_cons_err _ (by rw [h1, handleBranch, hb])]
  · have h1 : processLine (false, i) (str "- **Commit hash**: " ++ afterH) =
        handleHash false i afterH := rfl
    simp only [ParseRunInfo, parseLinesAux_append_ok _ hpre]
    rw [parseLinesAux_cons_err _ (by rw [h1, handleHash, hh])]

/-- C7 witness: a record whose branch value lacks the closing backtick. -/
theorem c7_unterminated_backtick_witness :
    parseLinesAux (false, initialRunInfo (str "runs/") (str "summary.md")) [] =
      ((false, initialRunInfo (str "runs/") (str "summary.md")), none) ∧
    trimBackticks (str "`main") = none ∧
    trimBackticks (str "`abc1234") = none ∧
    (ParseRunInfo (str "runs/") (str "summary.md")
      ([] ++ (str "- **Branch**: " ++ str "`main") :: [])).2 =
      some PErr.branchField ∧
    (ParseRunInfo (str "runs/") (str "summary.md")
      ([] ++ (str "- **Commit hash**: " ++ str "`abc1234") :: [])).2 =
      some PErr.commitHash := by
  refine ⟨rfl, by decide, by decide, ?_⟩
  exact c7_unterminated_backtick_field_error (str "runs/") (str "summary.md")
    [] [] (initialRunInfo (str "runs/") (str "summary.md"))
    (str "`main") (str "`abc1234") rfl (by decide) (by decide)

/-- C9 (implicit): when several non-fenced lines match the same label
prefix, `ParseRunInfo` keeps the value of the last such line for every
labelled field — each later match silently overwrites the earlier value
instead of being rejected as a duplicate (the parse returns no error). -/
theorem c9_last_label_match_wins (d f : Line) (t1 t2 e1 e2 : Timestamp)
    (b1 b2 ch1 ch2 c1 c2 : Line) (x1 x2 : Int)
    (hv1 : t1.Valid) (hv2 : t2.Valid) (hv3 : e1.Valid) (hv4 : e2.Valid) :
    ParseRunInfo d f
      [dtLine t1, branchLine b1, hashLine ch1, cmdLine c1, exitLine x1,
       endLine e1, dtLine t2, branchLine b2, hashLine ch2, cmdLine c2,
       exitLine x2, endLine e2] =
      ({ Directory := d, File := f, Command := c2, StartTime := truncSec t2,
         EndTime := truncSec e2, ExitStatus := x2, IsRunning := false,
         Branch := b2, CommitHash := ch2, Interrupted := false }, none) := by
  simp only [ParseRunInfo]
  rw [parseLinesAux_cons_ok _ (processLine_dt hv1)]
  rw [parseLinesAux_cons_ok _ (processLine_branch _ _)]
  rw [parseLinesAux_cons_ok _ (processLine_hash _ _)]
  rw [parseLinesAux_cons_ok _ (processLine_cmd _ _)]
  rw [parseLinesAux_cons_ok _ (processLine_exit _ _)]
  rw [parseLinesAux_cons_ok _ (processLine_end hv3)]
  rw [parseLinesAux_cons_ok _ (processLine_dt hv2)]
  rw [parseLinesAux_cons_ok _ (processLine_branch _ _)]
  rw [parseLinesAux_cons_ok _ (processLine_hash _ _)]
  rw [parseLinesAux_cons_ok _ (processLine_cmd _ _)]
  rw [parseLinesAux_cons_ok _ (processLine_exit _ _)]
  rw [parseLinesAux_cons_ok _ (processLine_end hv4)]
  rfl

/-- C9 witness: duplicated labels at concrete values; the second value of
each field is the one recovered. -/
theorem c9_last_label_match_witness :
    (⟨2024, 1, 1, 0, 0, 0, 0, 0⟩ : Timestamp).Valid ∧
    ParseRunInfo (str "runs/") (str "summary.md")
      [dtLine ⟨2024, 1, 1, 0, 0, 0, 0, 0⟩, branchLine (str "old"),
       hashLine (str "1111111"), cmdLine (str "a"), exitLine 1,
       endLine ⟨2024, 1, 1, 0, 0, 5, 0, 0⟩,
       dtLine ⟨2024, 2, 2, 0, 0, 0, 0, 0⟩, branchLine (str "new"),
       hashLine (str "2222222"), cmdLine (str "b"), exitLine 0,
       endLine ⟨2024, 2, 2, 0, 0, 9, 0, 0⟩] =
      ({ Directory := str "runs/", File := str "summary.md",
         Command := str "b", StartTime := truncSec ⟨2024, 2, 2, 0, 0, 0, 0, 0⟩,
         EndTime := truncSec ⟨2024, 2, 2, 0, 0, 9, 0, 0⟩, ExitStatus := 0,
         IsRunning := false, Branch := str "new",
         CommitHash := str "2222222", Interrupted := false }, none) :=
  ⟨by decide,
   c9_last_label_match_wins (str "runs/") (str "summary.md")
     ⟨2024, 1, 1, 0, 0, 0, 0, 0⟩ ⟨2024, 2, 2, 0, 0, 0, 0, 0⟩
     ⟨2024, 1, 1, 0, 0, 5, 0, 0⟩ ⟨2024, 2, 2, 0, 0, 9, 0, 0⟩
     (str "old") (str "new") (str "1111111") (str "2222222")
     (str "a") (str "b") 1 0
     (by decide) (by decide) (by decide) (by decide)⟩

theorem compareTime_le_iff {a b : Timestamp} :
    compareTime a b ≤ 0 ↔ tsAbsNs a ≤ tsAbsNs b := by
  rw [compareTime]
  split
  · omega
  · split <;> omega

theorem compareTime_neg_le_iff {a b : Timestamp} :
    -(compareTime a b) ≤ 0 ↔ tsAbsNs b ≤ tsAbsNs a := by
  rw [compareTime]
  split
  · omega
  · split <;> omega

theorem dateLE_iff {a b : RunInfo} :
    dateLE a b = true ↔ tsAbsNs a.StartTime ≤ tsAbsNs b.StartTime := by
  simp only [dateLE, decide_eq_true_eq]
  exact compareTime_le_iff

theorem dateGE_iff {a b : RunInfo} :
    dateGE a b = true ↔ tsAbsNs b.StartTime ≤ tsAbsNs a.StartTime := by
  simp only [dateGE, decide_eq_true_eq]
  exact compareTime_neg_le_iff

theorem dateLE_trans : ∀ a b c : RunInfo, dateLE a b = true → dateLE b c = true →
    dateLE a c = true := by
  intro a b c h1 h2
  rw [dateLE_iff] at h1 h2 ⊢
  omega

theorem dateLE_total : ∀ a b : RunInfo, (dateLE a b || dateLE b a) = true := by
  intro a b
  rcases le_total (tsAbsNs a.StartTime) (tsAbsNs b.StartTime) with h | h
  · simp [dateLE_iff.mpr h]
  · simp [dateLE_iff.mpr h]

theorem dateGE_trans : ∀ a b c : RunInfo, dateGE a b = true → dateGE b c = true →
    dateGE a c = true := by
  intro a b c h1 h2
  rw [dateGE_iff] at h1 h2 ⊢
  omega

theorem dateGE_total : ∀ a b : RunInfo, (dateGE a b || dateGE b a) = true := by
  intro a b
  rcases le_total (tsAbsNs a.StartTime) (tsAbsNs b.StartTime) with h | h
  · simp [dateGE_iff.mpr h]
  · simp [dateGE_iff.mpr h]

theorem sortRuns_date_false (runs : List RunInfo) :
    sortRuns runs (str "date") false = runs.mergeSort dateLE := rfl

theorem sortRuns_date_true (runs : List RunInfo) :
    sortRuns runs (str "date") true = runs.mergeSort dateGE := rfl

theorem mergeSort_pair_false {α : Type} {le : α → α → Bool} {a b : α}
    (h : le a b = false) : [a, b].mergeSort le = [b, a] := by
  simp [List.mergeSort, List.splitInTwo_fst, List.splitInTwo_snd, List.merge, h]

/-- C2 counterexample: with the default sort key and the reverse flag
unset, `sortRuns` puts the OLDER run first — ascending start time, not
the most-recent-first order the claim states. -/
theorem c2_default_sort_counterexample :
    tsAbsNs runOld.StartTime < tsAbsNs runNew.StartTime ∧
    sortRuns [runNew, runOld] (str "date") false = [runOld, runNew] ∧
    [runOld, runNew] ≠ [runNew, runOld] := by
  refine ⟨by decide, ?_, by decide⟩
  rw [sortRuns_date_false]
  exact mergeSort_pair_false (by decide)

/-- C2 (amended): with the default sort key, `sortRuns` orders run records
by ASCENDING start time (oldest first) and is a permutation of its input;
for records with pairwise-distinct start instants the reverse flag yields
exactly the inverse (most-recent-first) order; a positive limit keeps
exactly the first `n` records of the ordered sequence; and the sort is
stable — records whose start instants tie keep their discovery order. -/
theorem c2_default_sort_ascending (runs : List RunInfo) :
    (sortRuns runs (str "date") false).Pairwise
      (fun a b => tsAbsNs a.StartTime ≤ tsAbsNs b.StartTime) ∧
    (sortRuns runs (str "date") false).Perm runs ∧
    ((runs.map (fun r => tsAbsNs r.StartTime)).Nodup →
      sortRuns runs (str "date") true =
        (sortRuns runs (str "date") false).reverse) ∧
    (∀ (l : List RunInfo) (n : Int), 0 < n → applyLimit n l = l.take n.toNat) ∧
    (∀ (rev : Bool) (a b : RunInfo), [a, b].Sublist runs →
      tsAbsNs a.StartTime = tsAbsNs b.StartTime →
      [a, b].Sublist (sortRuns runs (str "date") rev)) := by
  refine ⟨?_, ?_, ?_, ?_, ?_⟩
  · rw [sortRuns_date_false]
    exact (List.sorted_mergeSort dateLE_trans dateLE_total runs).imp
      (fun h => dateLE_iff.mp h)
  · rw [sortRuns_date_false]
    exact List.mergeSort_perm runs dateLE
  · intro hd
    rw [sortRuns_date_false, sortRuns_date_true]
    have hach : runs.Pairwise
        (fun a b => tsAbsNs a.StartTime ≠ tsAbsNs b.StartTime) :=
      (List.pairwise_map).mp hd
    have hsymm : ∀ {x y : RunInfo},
        tsAbsNs x.StartTime ≠ tsAbsNs y.StartTime →
          tsAbsNs y.StartTime ≠ tsAbsNs x.StartTime :=
      fun h he => h he.symm
    have hpermA : (runs.mergeSort dateGE).Perm runs := List.mergeSort_perm runs dateGE
    have hpermL : (runs.mergeSort dateLE).Perm runs := List.mergeSort_perm runs dateLE
    have hstrictA : (runs.mergeSort dateGE).Pairwise
        (fun a b => tsAbsNs b.StartTime < tsAbsNs a.StartTime) := by
      have h1 := List.sorted_mergeSort dateGE_trans dateGE_total runs
      have h2 := (List.Perm.pairwise_iff hsymm hpermA).mpr hach
      exact (h1.and h2).imp (fun hp =>
        lt_of_le_of_ne (dateGE_iff.mp hp.1) (fun he => hp.2 he.symm))
    have hstrictB : ((runs.mergeSort dateLE).reverse).Pairwise
        (fun a b => tsAbsNs b.StartTime < tsAbsNs a.StartTime) := by
      rw [List.pairwise_reverse]
      have h1 := List.sorted_mergeSort dateLE_trans dateLE_total runs
      have h2 := (List.Perm.pairwise_iff hsymm hpermL).mpr hach
      exact (h1.and h2).imp (fun hp =>
        lt_of_le_of_ne (dateLE_iff.mp hp.1) hp.2)
    have hperm : (runs.mergeSort dateGE).Perm ((runs.mergeSort dateLE).reverse) :=
      hpermA.trans (hpermL.symm.trans (runs.mergeSort dateLE).reverse_perm.symm)
    haveI : IsAntisymm RunInfo
        (fun a b => tsAbsNs b.StartTime < tsAbsNs a.StartTime) :=
      ⟨fun a b h1 h2 => (lt_asymm h1 h2).elim⟩
    exact List.eq_of_perm_of_sorted hperm hstrictA hstrictB
  · intro l n hn
    rw [applyLimit]
    by_cases h : (n : Int) < l.length
    · rw [if_pos ⟨hn, h⟩]
    · rw [if_neg (by intro hc; exact h hc.2),
        List.take_of_length_le (by omega)]
  · intro rev a b hsub he
    cases rev with
    | false =>
      rw [sortRuns_date_false]
      exact List.pair_sublist_mergeSort dateLE_trans dateLE_total
        (dateLE_iff.mpr (le_of_eq he)) hsub
    | true =>
      rw [sortRuns_date_true]
      exact List.pair_sublist_mergeSort dateGE_trans dateGE_total
        (dateGE_iff.mpr (le_of_eq he.symm)) hsub

/-- C2 witness: the amended sort behaviour at two concrete records. -/
theorem c2_default_sort_witness :
    ([runNew, runOld].map (fun r => tsAbsNs r.StartTime)).Nodup ∧
    sortRuns [runNew, runOld] (str "date") true =
      (sortRuns [runNew, runOld] (str "date") false).reverse ∧
    applyLimit 1 [runOld, runNew] = [runOld] := by
  refine ⟨by decide, (c2_default_sort_ascending [runNew, runOld]).2.2.1 (by decide), ?_⟩
  rw [(c2_default_sort_ascending []).2.2.2.1 [runOld, runNew] 1 (by decide)]
  rfl

/-- C5: filtering by status `success` keeps exactly the finished runs with
zero exit status, `failure` exactly the finished runs with nonzero exit
status, `running` exactly the runs still marked running (no results block),
and no record satisfies more than one of the three status classes. -/
theorem c5_status_filters_partition (now : Timestamp) (cmdMatch : Line → Bool)
    (runs : List RunInfo) :
    filterRuns now cmdMatch runs (statusOnlyOpts (str "success")) =
      .ok (runs.filter (fun r => !r.IsRunning && decide (r.ExitStatus = 0))) ∧
    filterRuns now cmdMatch runs (statusOnlyOpts (str "failure")) =
      .ok (runs.filter (fun r => !r.IsRunning && decide (r.ExitStatus ≠ 0))) ∧
    filterRuns now cmdMatch runs (statusOnlyOpts (str "running")) =
      .ok (runs.filter (fun r => r.IsRunning)) ∧
    (∀ r : RunInfo,
      ¬((!r.IsRunning && decide (r.ExitStatus = 0)) = true ∧
        (!r.IsRunning && decide (r.ExitStatus ≠ 0)) = true) ∧
      ¬((!r.IsRunning && decide (r.ExitStatus = 0)) = true ∧
        r.IsRunning = true) ∧
      ¬((!r.IsRunning && decide (r.ExitStatus ≠ 0)) = true ∧
        r.IsRunning = true)) := by
  refine ⟨?_, ?_, ?_, ?_⟩
  · rw [filterRuns, if_neg (by simp [statusOnlyOpts])]
    congr 1
    apply List.filter_congr
    intro r _
    by_cases hr : r.IsRunning <;> by_cases he : r.ExitStatus = 0 <;>
      simp [keepRun, statusOnlyOpts, str, hr, he]
  · rw [filterRuns, if_neg (by simp [statusOnlyOpts])]
    congr 1
    apply List.filter_congr
    intro r _
    by_cases hr : r.IsRunning <;> by_cases he : r.ExitStatus = 0 <;>
      simp [keepRun, statusOnlyOpts, str, hr, he]
  · rw [filterRuns, if_neg (by simp [statusOnlyOpts])]
    congr 1
    apply List.filter_congr
    intro r _
    by_cases hr : r.IsRunning <;>
      simp [keepRun, statusOnlyOpts, str, hr]
  · intro r
    by_cases hr : r.IsRunning <;> by_cases he : r.ExitStatus = 0 <;>
      simp [hr, he]

theorem filterRunsToArchive_eq_filterMap (runDirs : List ArchDir)
    (cutoffNs : Int) (status : Line) :
    filterRunsToArchive runDirs cutoffNs status =
      runDirs.filterMap (archSelectFn cutoffNs status) := by
  induction runDirs with
  | nil => rfl
  | cons rd rest ih =>
    rw [filterRunsToArchive, List.filterMap_cons]
    cases hex : rd.exists2 with
    | false => simp [archSelectFn, hex, ih]
    | true =>
      cases hts : parseMilli (rd.dirName.take 23) with
      | none => simp [archSelectFn, hex, hts, ih]
      | some ts =>
        by_cases hcut : tsAbsNs ts < cutoffNs
        · by_cases hrun :
            (ParseRunInfo rd.summaryDir rd.summaryFile rd.summaryLines).1.IsRunning = true
          · simp [archSelectFn, hex, hts, hcut, hrun, ih]
          · by_cases hsk : archStatusSkip status
                (ParseRunInfo rd.summaryDir rd.summaryFile rd.summaryLines).1 = true
            · simp [archSelectFn, hex, hts, hcut, hrun, hsk, ih]
            · simp [archSelectFn, hex, hts, hcut, hrun, hsk, ih]
        · simp [archSelectFn, hex, hts, hcut, ih]

/-- C4 counterexample: with the age cutoff unset, a finished, successful,
status-matching run whose directory timestamp lies two years in the future
is NOT selected — the unset cutoff is `now + 1 year`, not "no age filter". -/
theorem c4_unset_cutoff_counterexample :
    (ParseRunInfo (str "runs/2028-01-01T00:00:00.000_main_abc1234/")
      (str "summary.md") [exitLine 0]).1.IsRunning = false ∧
    (ParseRunInfo (str "runs/2028-01-01T00:00:00.000_main_abc1234/")
      (str "summary.md") [exitLine 0]).1.ExitStatus = 0 ∧
    archiveSelect
      [{ exists2 := true, dirName := str "2028-01-01T00:00:00.000_main_abc1234",
         summaryDir := str "runs/2028-01-01T00:00:00.000_main_abc1234/",
         summaryFile := str "summary.md", summaryLines := [exitLine 0] }]
      [] [] ⟨2026, 10, 11, 0, 0, 0, 0, 0⟩ = .ok [] := by
  refine ⟨by decide, by decide, ?_⟩
  rw [archiveSelect, if_neg (by simp)]
  rw [filterRunsToArchive, filterRunsToArchive]
  norm_num
  decide

/-- C4 (amended): `filterRunsToArchive` keeps exactly the finished runs
(never a running one) whose directory timestamp precedes the cutoff and
whose status matches the filter; when the age cutoff is unset, the cutoff
is set to one year AFTER the current time, so age filtering still applies
against that future instant (a run time-stamped a year or more in the
future is excluded) rather than no age filter at all. -/
theorem c4_archive_selection_cutoff (runDirs : List ArchDir) (status : Line)
    (now : Timestamp) :
    archiveSelect runDirs [] status now =
      .ok (filterRunsToArchive runDirs (tsAbsNs (addOneYear now)) status) ∧
    (∀ cutoffNs : Int, filterRunsToArchive runDirs cutoffNs status =
      runDirs.filterMap (archSelectFn cutoffNs status)) ∧
    (∀ cutoffNs : Int, ∀ r ∈ filterRunsToArchive runDirs cutoffNs status,
      r.IsRunning = false) := by
  refine ⟨by rw [archiveSelect, if_neg (by simp)], ?_, ?_⟩
  · intro c
    exact filterRunsToArchive_eq_filterMap runDirs c status
  · intro c r hr
    rw [filterRunsToArchive_eq_filterMap] at hr
    obtain ⟨rd, _, heq⟩ := List.mem_filterMap.mp hr
    simp only [archSelectFn] at heq
    split at heq
    · split at heq
      · split at heq
        · split at heq
          · rename_i hcond
            cases heq
            exact hcond.1
          · cases heq
        · cases heq
      · cases heq
    · cases heq

/-- C3 counterexample: on the completion path, a child killed by a signal
yields an `*exec.ExitError` whose `ExitCode()` is -1, so the recorded exit
status is -1, not the 1 the claim states (1 is the mapping for wait errors
that are not `*exec.ExitError`). -/
theorem c3_signal_killed_counterexample :
    resolveRace (.done (.exitError (.signaled 9))) = (-1, false, false) ∧
    ((-1 : Int) ≠ 1) := by
  exact ⟨rfl, by decide⟩

/-- C3 (amended): when the race resolves on the completion path the
recorded exit status is the child's real exit code for an exited child,
-1 (the `ExitCode()` convention) for a signal-killed child, and 1 only for
a wait error that is not an `*exec.ExitError`; when it resolves on the
signal path the recorded exit status is 130 regardless of the child's own
code, the run is marked interrupted, and the signal is forwarded exactly
when the zero-signal liveness probe confirms the child alive.  The trace
equation shows the resolved values are what `WriteSummaryFileEnd`
records. -/
theorem c3_race_resolution_recording (cfg : RunConfig) (startTime : Timestamp)
    (env : RunEnv) (repo : RepoStatus)
    (h1 : env.repoStatus = .ok repo)
    (h2 : ¬(repo.IsDirty = true ∧ cfg.Force = false))
    (h3 : ¬cfg.BaseDir = [])
    (h4 : env.mkdirBaseOk = true) (h5 : env.mkdirExpOk = true)
    (h6 : env.writeInitOk = true) (h7 : env.createStdoutOk = true)
    (h8 : env.createStderrOk = true) (h9 : env.startOk = true)
    (h10 : env.writeEndOk = true) :
    (runMain cfg startTime env).2 =
      [RunEffect.mkdirAll cfg.BaseDir,
       RunEffect.mkdir (cfg.BaseDir ++ '/' :: (fmtMilli startTime ++ '_' ::
         (SanitizeBranchName repo.Branch ++ '_' :: repo.ShortHash))),
       RunEffect.writeSummaryInit ((cfg.BaseDir ++ '/' :: (fmtMilli startTime ++ '_' ::
         (SanitizeBranchName repo.Branch ++ '_' :: repo.ShortHash))) ++ '/' :: cfg.SummaryFile),
       RunEffect.createFile ((cfg.BaseDir ++ '/' :: (fmtMilli startTime ++ '_' ::
         (SanitizeBranchName repo.Branch ++ '_' :: repo.ShortHash))) ++ '/' :: cfg.StdoutFile),
       RunEffect.createFile ((cfg.BaseDir ++ '/' :: (fmtMilli startTime ++ '_' ::
         (SanitizeBranchName repo.Branch ++ '_' :: repo.ShortHash))) ++ '/' :: cfg.StderrFile),
       RunEffect.startChild] ++
      (if (resolveRace env.race).2.2 = true then [RunEffect.forwardSignal] else []) ++
      [RunEffect.writeSummaryEnd ((cfg.BaseDir ++ '/' :: (fmtMilli startTime ++ '_' ::
         (SanitizeBranchName repo.Branch ++ '_' :: repo.ShortHash))) ++ '/' :: cfg.SummaryFile)
         (resolveRace env.race).1 (resolveRace env.race).2.1] ++
      (if (resolveRace env.race).1 ≠ 0 ∧ cfg.CleanupOnFail = true then
        [RunEffect.removeAll (cfg.BaseDir ++ '/' :: (fmtMilli startTime ++ '_' ::
          (SanitizeBranchName repo.Branch ++ '_' :: repo.ShortHash)))] else []) ∧
    (∀ c : Int, resolveRace (.done (.exitError (.exited c))) = (c, false, false)) ∧
    (∀ s : Nat, resolveRace (.done (.exitError (.signaled s))) = (-1, false, false)) ∧
    resolveRace (.done .success) = (0, false, false) ∧
    resolveRace (.done .otherError) = (1, false, false) ∧
    (∀ alive : Bool, resolveRace (.signaled alive) = (130, true, alive)) := by
  refine ⟨?_, fun c => rfl, fun s => rfl, rfl, rfl, fun alive => rfl⟩
  simp only [runMain, h1, if_neg h2, if_neg h3, h4, h5, h6, h7, h8, h9, h10,
    Bool.true_eq_false, if_false]
  split <;> simp [List.append_assoc]

/-- C3 witness: the amended race behaviour at a concrete interrupted run —
the signal is forwarded (probe says alive) and exit status 130 with the
interrupted flag is what the results append records. -/
theorem c3_race_recording_witness :
    (runMain cfgEx ⟨2024, 1, 1, 0, 0, 0, 0, 0⟩ envSigEx).2 =
      [RunEffect.mkdirAll (str "runs"),
       RunEffect.mkdir (str "runs/2024-01-01T00:00:00.000_main_abc1234"),
       RunEffect.writeSummaryInit
         (str "runs/2024-01-01T00:00:00.000_main_abc1234/summary.md"),
       RunEffect.createFile
         (str "runs/2024-01-01T00:00:00.000_main_abc1234/stdout.log"),
       RunEffect.createFile
         (str "runs/2024-01-01T00:00:00.000_main_abc1234/stderr.log"),
       RunEffect.startChild, RunEffect.forwardSignal,
       RunEffect.writeSummaryEnd
         (str "runs/2024-01-01T00:00:00.000_main_abc1234/summary.md")
         130 true] := by
  have h := c3_race_resolution_recording cfgEx ⟨2024, 1, 1, 0, 0, 0, 0, 0⟩
    envSigEx repoEx rfl (by decide) (by decide) rfl rfl rfl rfl rfl rfl rfl
  rw [h.1]
  decide

/-- C8: `run.Main` fails with the dirty-repository error, before creating
any directory or writing any file, exactly when the working tree is dirty
and the force override is unset; `experiment.Run`'s guard additionally
requires the configured `git.require_clean` allowance to be enabled, so
with the tree clean, the override set, or the allowance disabled the
check does not abort the run. -/
theorem c8_dirty_repo_guard (cfg : RunConfig) (startTime : Timestamp)
    (env : RunEnv) (repo : RepoStatus) (h1 : env.repoStatus = .ok repo) :
    ((runMain cfg startTime env).1 = .error .dirtyRepo ↔
      (repo.IsDirty = true ∧ cfg.Force = false)) ∧
    ((repo.IsDirty = true ∧ cfg.Force = false) →
      (runMain cfg startTime env).2 = []) ∧
    (∀ force requireClean : Bool,
      expRunDirtyGuard repo force requireClean = true ↔
        (repo.IsDirty = true ∧ force = false ∧ requireClean = true)) := by
  refine ⟨?_, ?_, ?_⟩
  · by_cases hg : repo.IsDirty = true ∧ cfg.Force = false
    · simp [runMain, h1, hg]
    · have hne : (runMain cfg startTime env).1 ≠ .error .dirtyRepo := by
        simp only [runMain, h1, if_neg hg]
        by_cases hb : cfg.BaseDir = []
        · simp [hb]
        · rw [if_neg hb]
          by_cases k1 : env.mkdirBaseOk = false
          · simp [k1]
          · rw [if_neg k1]
            by_cases k2 : env.mkdirExpOk = false
            · simp [k2]
            · rw [if_neg k2]
              by_cases k3 : env.writeInitOk = false
              · simp [k3]
              · rw [if_neg k3]
                by_cases k4 : env.createStdoutOk = false
                · simp [k4]
                · rw [if_neg k4]
                  by_cases k5 : env.createStderrOk = false
                  · simp [k5]
                  · rw [if_neg k5]
                    by_cases k6 : env.startOk = false
                    · simp [k6]
                    · rw [if_neg k6]
                      by_cases k7 : env.writeEndOk = false
                      · simp [k7]
                      · rw [if_neg k7]
                        by_cases k8 : (resolveRace env.race).1 ≠ 0
                        · simp [k8]
                        · simp [k8]
      exact ⟨fun h => absurd h hne, fun h => absurd h hg⟩
  · intro h
    simp [runMain, h1, h]
  · intro force requireClean
    simp [expRunDirtyGuard]

/-- C8 witness: a dirty tree without the override aborts with the
dirty-repository error and an empty effect trace. -/
theorem c8_dirty_repo_witness :
    envDirtyEx.repoStatus = .ok repoDirtyEx ∧
    (runMain cfgEx ⟨2024, 1, 1, 0, 0, 0, 0, 0⟩ envDirtyEx).1 =
      .error .dirtyRepo ∧
    (runMain cfgEx ⟨2024, 1, 1, 0, 0, 0, 0, 0⟩ envDirtyEx).2 = [] := by
  have h := c8_dirty_repo_guard cfgEx ⟨2024, 1, 1, 0, 0, 0, 0, 0⟩
    envDirtyEx repoDirtyEx rfl
  exact ⟨rfl, h.1.mpr ⟨rfl, rfl⟩, h.2.1 ⟨rfl, rfl⟩⟩

/-- C10 (implicit): when spawning the child fails, the orchestrator has
already created the run directory, written the initial record and created
both log files inside it — and before returning the spawn error its last
effect removes that whole directory recursively (`os.RemoveAll`), so no
trace of the attempted run is left under the base directory. -/
theorem c10_spawn_failure_cleanup (cfg : RunConfig) (startTime : Timestamp)
    (env : RunEnv) (repo : RepoStatus)
    (h1 : env.repoStatus = .ok repo)
    (h2 : ¬(repo.IsDirty = true ∧ cfg.Force = false))
    (h3 : ¬cfg.BaseDir = [])
    (h4 : env.mkdirBaseOk = true) (h5 : env.mkdirExpOk = true)
    (h6 : env.writeInitOk = true) (h7 : env.createStdoutOk = true)
    (h8 : env.createStderrOk = true) (h9 : env.startOk = false) :
    (runMain cfg startTime env).1 = .error .startFailed ∧
    (runMain cfg startTime env).2 =
      [RunEffect.mkdirAll cfg.BaseDir,
       RunEffect.mkdir (cfg.BaseDir ++ '/' :: (fmtMilli startTime ++ '_' ::
         (SanitizeBranchName repo.Branch ++ '_' :: repo.ShortHash))),
       RunEffect.writeSummaryInit ((cfg.BaseDir ++ '/' :: (fmtMilli startTime ++ '_' ::
         (SanitizeBranchName repo.Branch ++ '_' :: repo.ShortHash))) ++ '/' :: cfg.SummaryFile),
       RunEffect.createFile ((cfg.BaseDir ++ '/' :: (fmtMilli startTime ++ '_' ::
         (SanitizeBranchName repo.Branch ++ '_' :: repo.ShortHash))) ++ '/' :: cfg.StdoutFile),
       RunEffect.createFile ((cfg.BaseDir ++ '/' :: (fmtMilli startTime ++ '_' ::
         (SanitizeBranchName repo.Branch ++ '_' :: repo.ShortHash))) ++ '/' :: cfg.StderrFile),
       RunEffect.startChild,
       RunEffect.removeAll (cfg.BaseDir ++ '/' :: (fmtMilli startTime ++ '_' ::
         (SanitizeBranchName repo.Branch ++ '_' :: repo.ShortHash)))] := by
  constructor
  · simp only [runMain, h1, if_neg h2, if_neg h3, h4, h5, h6, h7, h8, h9,
      Bool.true_eq_false, if_false, if_true]
  · simp only [runMain, h1, if_neg h2, if_neg h3, h4, h5, h6, h7, h8, h9,
      Bool.true_eq_false, if_false, if_true]
    simp [List.append_assoc]

/-- C10 witness: a concrete spawn failure removes the freshly created run
directory as its final effect. -/
theorem c10_spawn_failure_witness :
    (runMain cfgEx ⟨2024, 1, 1, 0, 0, 0, 0, 0⟩ envStartFailEx).1 =
      .error .startFailed ∧
    (runMain cfgEx ⟨2024, 1, 1, 0, 0, 0, 0, 0⟩ envStartFailEx).2 =
      [RunEffect.mkdirAll (str "runs"),
       RunEffect.mkdir (str "runs/2024-01-01T00:00:00.000_main_abc1234"),
       RunEffect.writeSummaryInit
         (str "runs/2024-01-01T00:00:00.000_main_abc1234/summary.md"),
       RunEffect.createFile
         (str "runs/2024-01-01T00:00:00.000_main_abc1234/stdout.log"),
       RunEffect.createFile
         (str "runs/2024-01-01T00:00:00.000_main_abc1234/stderr.log"),
       RunEffect.startChild,
       RunEffect.removeAll (str "runs/2024-01-01T00:00:00.000_main_abc1234")] := by
  have h := c10_spawn_failure_cleanup cfgEx ⟨2024, 1, 1, 0, 0, 0, 0, 0⟩
    envStartFailEx repoEx rfl (by decide) (by decide) rfl rfl rfl rfl rfl rfl
  refine ⟨h.1, ?_⟩
  rw [h.2]
  decide
